import Mathlib

/-!
Verification development for the Cannect federation synchronization engine.

The definitions below are shallow embeddings of the repository's code:
* the `generate_tid` SQL function
  (supabase/migrations_archive/20251221160000_add_generate_tid_function.sql),
* the federation staging triggers, each in its operative (latest-applied)
  body: the post-create trigger from the generate_tid-era redefinition
  appended in the 20251221133000 migration file; the like/repost create and
  delete triggers from migration 20251221171000; the post-deletion, follow
  and unfollow triggers from the comprehensive-fix migration,
* the Jetstream event processor
  (supabase/functions/process-jetstream-event/index.ts),
* the feed inclusion predicate (feed-vps feed-logic) and the
  `getFeedSkeleton` endpoint (scripts/feed-vps/index.js).

Database rows are lists of structures; nullable SQL/JS values are `Option`;
timestamps that the claims do not touch (`created_at`, `NOW()`) are omitted.
Nondeterministic inputs (random rkey bytes, wall clock, remote profile
fetches, delivery outcomes) are passed as explicit arguments.
-/

namespace Cannect

/-! ### TID generator

Source: `generate_tid()` in
supabase/migrations_archive/20251221160000_add_generate_tid_function.sql.
The SQL uses a signed 64-bit `combined := (timestamp_us << 10) | clock_id`
and extracts 13 base-32 digits with `combined & 31` / `combined >> 5`
(arithmetic shift).  We model the 64-bit value as a `Nat` reduced mod `2^64`;
`signExtend65` accounts for the arithmetic right shift replicating bit 63
into bit 64 during the 13th extraction. -/

def b32Chars : List Char := "234567abcdefghijklmnopqrstuvwxyz".toList

/-- One output character: `substr(b32_chars, (combined & 31)::INTEGER + 1, 1)`. -/
def tidChar (n : Nat) : Char := b32Chars.getD (n &&& 31) '2'

/-- The loop `FOR i IN 1..13 LOOP result := char || result; combined := combined >> 5`. -/
def tidLoop : Nat → Nat → List Char → List Char
  | 0, _, acc => acc
  | k + 1, v, acc => tidLoop k (v >>> 5) (tidChar (v &&& 31) :: acc)

/-- `combined := (timestamp_us << 10) | clock_id`, as a 64-bit value. -/
def combined64 (timestamp_us clock_id : Nat) : Nat :=
  ((timestamp_us <<< 10) ||| clock_id) % 2 ^ 64

/-- Arithmetic right shifts on the signed 64-bit `combined` make the 13th
extracted digit see bit 63 duplicated at bit 64. -/
def signExtend65 (w : Nat) : Nat := w + w / 2 ^ 63 % 2 * 2 ^ 64

def generate_tid (timestamp_us clock_id : Nat) : String :=
  ⟨tidLoop 13 (signExtend65 (combined64 timestamp_us clock_id)) []⟩

/-- Big-endian base-32 digits (least significant digit last), the digit
sequence produced by `tidLoop`. -/
def tidDigitsBE : Nat → Nat → List Nat
  | 0, _ => []
  | k + 1, v => tidDigitsBE k (v / 32) ++ [v % 32]

/-! ### Federation queue (outbox) and staging triggers

Sources, taking for each trigger the body installed by the latest migration
that redefines it: `queue_post_for_federation` from the generate_tid-era
redefinition appended in the 20251221133000 migration file;
`queue_like_for_federation`, `queue_repost_for_federation`,
`queue_unlike_for_federation` and `queue_unrepost_for_federation` from
migration 20251221171000 (plain INSERT without `ON CONFLICT`, body wrapped
in `EXCEPTION WHEN OTHERS` returning NEW/OLD);
`queue_post_deletion_for_federation`, `queue_follow_for_federation` and
`queue_unfollow_for_federation` from the comprehensive-fix migration
(`ON CONFLICT ... DO UPDATE` upserts, no exception handler).

`jsonb` record payloads are modelled by `FQRecordData`, keeping exactly the
fields the claims are about (the like/repost subject uri+cid, the post
reply references and quote embed, the follow subject); `createdAt`, `langs`
and `facets` are omitted.  `generate_tid()`-derived rkeys are an explicit
`genRkey` argument.  A possible runtime error while inserting into
`federation_queue` is the explicit `insertFails` argument: a trigger
without an exception handler propagates it (`Except.error`, aborting the
originating mutation); the 20251221171000 handlers swallow it after the
subtransaction rolled back, as they do the duplicate-key violation raised
by a plain INSERT on an already-staged key. -/

structure ProfileRow where
  id : Nat
  did : Option String
  handle : Option String
deriving DecidableEq, Repr

structure PostRow where
  id : Nat
  user_id : Nat
  content : Option String
  rkey : Option String
  at_uri : Option String
  at_cid : Option String
  thread_parent_id : Option Nat
  thread_root_id : Option Nat
  is_reply : Bool
  repost_of_id : Option Nat
  embed_type : Option String
  embed_record_uri : Option String
  embed_record_cid : Option String
deriving DecidableEq, Repr

structure LikeRow where
  id : Nat
  user_id : Nat
  post_id : Option Nat
  rkey : Option String
  at_uri : Option String
  subject_uri : Option String
  subject_cid : Option String
deriving DecidableEq, Repr

structure RepostRow where
  id : Nat
  user_id : Nat
  post_id : Option Nat
  rkey : Option String
  at_uri : Option String
  subject_uri : Option String
  subject_cid : Option String
deriving DecidableEq, Repr

structure FollowRow where
  id : Nat
  follower_id : Nat
  following_id : Nat
  rkey : Option String
  at_uri : Option String
  subject_did : Option String
deriving DecidableEq, Repr

/-- Reply references of a staged post record: parent uri, parent cid,
root uri, root cid (roots already COALESCEd as in the source). -/
structure ReplyRef where
  parent_uri : String
  parent_cid : String
  root_uri : String
  root_cid : String
deriving DecidableEq, Repr

inductive FQRecordData where
  | postData (text : String) (reply : Option ReplyRef)
      (quote : Option (String × String))
  | likeData (subject_uri : Option String) (subject_cid : Option String)
  | repostData (subject_uri : Option String) (subject_cid : Option String)
  | followData (subject : String)
deriving DecidableEq, Repr

structure FQEntry where
  record_type : String
  record_id : Nat
  user_did : String
  collection : String
  rkey : Option String
  at_uri : Option String
  record_data : Option FQRecordData
  operation : String
  status : String
  attempts : Nat
  last_error : Option String
deriving DecidableEq, Repr

/-- The `ON CONFLICT (record_type, record_id, operation)` key. -/
def FQEntry.key (e : FQEntry) : String × Nat × String :=
  (e.record_type, e.record_id, e.operation)

/-- `INSERT ... ON CONFLICT (record_type, record_id, operation) DO UPDATE SET
record_data = EXCLUDED.record_data, status = 'pending', attempts = 0,
last_error = NULL, created_at = NOW()` over a list-modelled table. -/
def fqUpsert (q : List FQEntry) (e : FQEntry) : List FQEntry :=
  if q.any (fun r => r.key = e.key) then
    q.map (fun r =>
      if r.key = e.key then
        { r with record_data := e.record_data, status := "pending",
                 attempts := 0, last_error := none }
      else r)
  else q ++ [e]

/-- The delete-variant upsert: `DO UPDATE SET status = 'pending',
attempts = 0, last_error = NULL, created_at = NOW()` (no record_data). -/
def fqUpsertDelete (q : List FQEntry) (e : FQEntry) : List FQEntry :=
  if q.any (fun r => r.key = e.key) then
    q.map (fun r =>
      if r.key = e.key then
        { r with status := "pending", attempts := 0, last_error := none }
      else r)
  else q ++ [e]

structure FedState where
  profiles : List ProfileRow
  posts : List PostRow
  likes : List LikeRow
  reposts : List RepostRow
  follows : List FollowRow
  federation_queue : List FQEntry
deriving DecidableEq, Repr

/-- `SELECT did INTO v FROM profiles WHERE id = uid` (no row or NULL did both
give NULL). -/
def profileDid (st : FedState) (uid : Nat) : Option String :=
  match st.profiles.find? (fun p => p.id = uid) with
  | some p => p.did
  | none => none

/-- `SELECT handle ... FROM profiles WHERE id = uid`. -/
def profileHandle (st : FedState) (uid : Nat) : Option String :=
  match st.profiles.find? (fun p => p.id = uid) with
  | some p => p.handle
  | none => none

/-- `SELECT at_uri, at_cid FROM posts WHERE id = pid` (missing row gives two
NULLs, as `SELECT INTO` does). -/
def postUriCid (st : FedState) (pid : Option Nat) : Option String × Option String :=
  match pid with
  | none => (none, none)
  | some i =>
    match st.posts.find? (fun p => p.id = i) with
    | some p => (p.at_uri, p.at_cid)
    | none => (none, none)

/-- The shared subject-resolution block of the like and repost triggers:
take `NEW.subject_uri/subject_cid`, and if either is missing overwrite both
from the posts table. -/
def resolveSubject (st : FedState) (subject_uri subject_cid : Option String)
    (post_id : Option Nat) : Option String × Option String :=
  if subject_uri = none ∨ subject_cid = none then postUriCid st post_id
  else (subject_uri, subject_cid)

/-- The reply-reference block of `queue_post_for_federation`: look up the
parent and `COALESCE(NEW.thread_root_id, NEW.thread_parent_id)` uri/cid and
attach the reply object only when both parent values are present (root
values COALESCE to the parent ones). -/
def postReplyRef (st : FedState) (new : PostRow) : Option ReplyRef :=
  match new.thread_parent_id with
  | none => none
  | some pid =>
    let pc := postUriCid st (some pid)
    let rc := postUriCid st (some (new.thread_root_id.getD pid))
    match pc.1, pc.2 with
    | some pu, some pcid =>
      some ⟨pu, pcid, rc.1.getD pu, rc.2.getD pcid⟩
    | _, _ => none

/-- The quote-embed block: when `NEW.repost_of_id` is set and the content is
neither NULL nor empty, look up the quoted post and attach its (uri, cid)
only when both are present. -/
def postQuoteEmbed (st : FedState) (new : PostRow) : Option (String × String) :=
  match new.repost_of_id with
  | none => none
  | some qid =>
    match new.content with
    | none => none
    | some c =>
      if c = "" then none
      else
        let qc := postUriCid st (some qid)
        match qc.1, qc.2 with
        | some qu, some qcid => some (qu, qcid)
        | _, _ => none

/-- The `UPDATE posts SET embed_type = 'record', embed_record_uri,
embed_record_cid WHERE id = NEW.id` executed inside the quote branch. -/
def postsAfterQuoteUpdate (st : FedState) (new : PostRow) : List PostRow :=
  match postQuoteEmbed st new with
  | some (qu, qc) =>
    st.posts.map (fun p =>
      if p.id = new.id then
        { p with embed_type := some "record", embed_record_uri := some qu,
                 embed_record_cid := some qc }
      else p)
  | none => st.posts

/-- The outbox row staged by `queue_post_for_federation`:
`CASE WHEN NEW.is_reply THEN 'reply' ELSE 'post' END` keys the record type. -/
def post_entry (st : FedState) (new : PostRow) (did v_rkey v_at_uri : String) :
    FQEntry :=
  { record_type := if new.is_reply then "reply" else "post",
    record_id := new.id, user_did := did,
    collection := "app.bsky.feed.post",
    rkey := some v_rkey, at_uri := some v_at_uri,
    record_data := some (.postData (new.content.getD "") (postReplyRef st new)
      (postQuoteEmbed st new)),
    operation := "create", status := "pending",
    attempts := 0, last_error := none }

/-- `queue_post_for_federation`, operative body (the generate_tid-era
version appended in the 20251221133000 migration file): always generates a
fresh rkey via `generate_tid()` (the `genRkey` argument), updates the post
row unconditionally before building the record, adds reply and quote-embed
references, and upserts with the full `ON CONFLICT ... DO UPDATE` reset.
It has no exception handler, so an insert error propagates. -/
def queue_post_for_federation (st : FedState) (new : PostRow) (genRkey : String)
    (insertFails : Bool) : Except String (FedState × PostRow) :=
  match profileDid st new.user_id with
  | none => .ok (st, new)
  | some did =>
    let v_rkey := genRkey
    let v_at_uri := "at://" ++ did ++ "/app.bsky.feed.post/" ++ v_rkey
    let posts' := st.posts.map (fun p =>
      if p.id = new.id then
        { p with rkey := some v_rkey, at_uri := some v_at_uri }
      else p)
    let st1 : FedState := { st with posts := posts' }
    if insertFails then .error "federation_queue insert failed"
    else .ok ({ st with
                  posts := postsAfterQuoteUpdate st1 new,
                  federation_queue := fqUpsert st.federation_queue
                    (post_entry st1 new did v_rkey v_at_uri) }, new)

/-- `queue_post_deletion_for_federation`. -/
def queue_post_deletion_for_federation (st : FedState) (old : PostRow)
    (insertFails : Bool) : Except String (FedState × PostRow) :=
  if old.at_uri = none then .ok (st, old)
  else
    match profileDid st old.user_id with
    | none => .ok (st, old)
    | some did =>
      let entry : FQEntry :=
        { record_type := if old.thread_parent_id.isSome then "reply" else "post",
          record_id := old.id, user_did := did,
          collection := "app.bsky.feed.post",
          rkey := old.rkey, at_uri := old.at_uri,
          record_data := none,
          operation := "delete", status := "pending",
          attempts := 0, last_error := none }
      if insertFails then .error "federation_queue insert failed"
      else .ok ({ st with
                  federation_queue := fqUpsertDelete st.federation_queue entry },
                old)

/-- `queue_like_for_federation`, operative body (migration 20251221171000):
same did and null-subject guards, `generate_tid()` rkey fallback, likes-row
update, then a plain `INSERT` with no `ON CONFLICT` clause.  The whole body
is wrapped in `EXCEPTION WHEN OTHERS THEN RAISE WARNING; RETURN NEW`, so a
duplicate-key violation (the outbox's unique index on the staging key) or
any other insert error rolls the block back and the trigger still returns
NEW with the state unchanged.  `attempts`/`last_error` of a fresh row come
from the column defaults (0 / NULL). -/
def like_entry (new : LikeRow) (did genRkey uri cid : String) : FQEntry :=
  { record_type := "like", record_id := new.id, user_did := did,
    collection := "app.bsky.feed.like",
    rkey := some (new.rkey.getD genRkey),
    at_uri := some ("at://" ++ did ++ "/app.bsky.feed.like/" ++ new.rkey.getD genRkey),
    record_data := some (.likeData (some uri) (some cid)),
    operation := "create", status := "pending",
    attempts := 0, last_error := none }

def queue_like_for_federation (st : FedState) (new : LikeRow) (genRkey : String)
    (insertFails : Bool) : Except String (FedState × LikeRow) :=
  match profileDid st new.user_id with
  | none => .ok (st, new)
  | some did =>
    match resolveSubject st new.subject_uri new.subject_cid new.post_id with
    | (none, _) => .ok (st, new)
    | (some _, none) => .ok (st, new)
    | (some uri, some cid) =>
      let v_rkey := new.rkey.getD genRkey
      let v_at_uri := "at://" ++ did ++ "/app.bsky.feed.like/" ++ v_rkey
      let likes' := st.likes.map (fun l =>
        if l.id = new.id then
          { l with rkey := some v_rkey, at_uri := some v_at_uri,
                   subject_uri := some uri, subject_cid := some cid }
        else l)
      if insertFails || st.federation_queue.any
          (fun r => r.key = (like_entry new did genRkey uri cid).key) then
        .ok (st, new)
      else
        .ok ({ st with
                 likes := likes',
                 federation_queue :=
                   st.federation_queue ++ [like_entry new did genRkey uri cid] },
              new)

/-- `queue_unlike_for_federation`, operative body (migration 20251221171000):
skips when `OLD.rkey` or `OLD.at_uri` is NULL, plain `INSERT` of the delete
row (no record_data, no `ON CONFLICT`), `EXCEPTION WHEN OTHERS THEN RETURN
OLD` swallowing insert errors. -/
def unlike_entry (old : LikeRow) (did : String) : FQEntry :=
  { record_type := "like", record_id := old.id, user_did := did,
    collection := "app.bsky.feed.like",
    rkey := old.rkey, at_uri := old.at_uri,
    record_data := none,
    operation := "delete", status := "pending",
    attempts := 0, last_error := none }

def queue_unlike_for_federation (st : FedState) (old : LikeRow)
    (insertFails : Bool) : Except String (FedState × LikeRow) :=
  if old.rkey = none ∨ old.at_uri = none then .ok (st, old)
  else
    match profileDid st old.user_id with
    | none => .ok (st, old)
    | some did =>
      if insertFails || st.federation_queue.any
          (fun r => r.key = (unlike_entry old did).key) then
        .ok (st, old)
      else
        .ok ({ st with
                 federation_queue := st.federation_queue ++ [unlike_entry old did] },
              old)

/-- `queue_repost_for_federation`, operative body (migration 20251221171000):
same shape as the like trigger -- plain `INSERT`, no `ON CONFLICT`, and an
`EXCEPTION WHEN OTHERS THEN RAISE WARNING; RETURN NEW` handler that
swallows duplicate-key and other insert errors. -/
def repost_entry (new : RepostRow) (did genRkey uri cid : String) : FQEntry :=
  { record_type := "repost", record_id := new.id, user_did := did,
    collection := "app.bsky.feed.repost",
    rkey := some (new.rkey.getD genRkey),
    at_uri := some ("at://" ++ did ++ "/app.bsky.feed.repost/" ++ new.rkey.getD genRkey),
    record_data := some (.repostData (some uri) (some cid)),
    operation := "create", status := "pending",
    attempts := 0, last_error := none }

def queue_repost_for_federation (st : FedState) (new : RepostRow) (genRkey : String)
    (insertFails : Bool) : Except String (FedState × RepostRow) :=
  match profileDid st new.user_id with
  | none => .ok (st, new)
  | some did =>
    match resolveSubject st new.subject_uri new.subject_cid new.post_id with
    | (none, _) => .ok (st, new)
    | (some _, none) => .ok (st, new)
    | (some uri, some cid) =>
      let v_rkey := new.rkey.getD genRkey
      let v_at_uri := "at://" ++ did ++ "/app.bsky.feed.repost/" ++ v_rkey
      let reposts' := st.reposts.map (fun r =>
        if r.id = new.id then
          { r with rkey := some v_rkey, at_uri := some v_at_uri,
                   subject_uri := some uri, subject_cid := some cid }
        else r)
      if insertFails || st.federation_queue.any
          (fun r => r.key = (repost_entry new did genRkey uri cid).key) then
        .ok (st, new)
      else
        .ok ({ st with
                 reposts := reposts',
                 federation_queue :=
                   st.federation_queue ++ [repost_entry new did genRkey uri cid] },
              new)

/-- `queue_unrepost_for_federation`, operative body (migration
20251221171000): skips when `OLD.rkey` or `OLD.at_uri` is NULL, plain
`INSERT` of the delete row (no record_data, no `ON CONFLICT`),
`EXCEPTION WHEN OTHERS THEN RETURN OLD` swallowing insert errors -- the
delete of the repost is never aborted by staging. -/
def unrepost_entry (old : RepostRow) (did : String) : FQEntry :=
  { record_type := "repost", record_id := old.id, user_did := did,
    collection := "app.bsky.feed.repost",
    rkey := old.rkey, at_uri := old.at_uri,
    record_data := none,
    operation := "delete", status := "pending",
    attempts := 0, last_error := none }

def queue_unrepost_for_federation (st : FedState) (old : RepostRow)
    (insertFails : Bool) : Except String (FedState × RepostRow) :=
  if old.rkey = none ∨ old.at_uri = none then .ok (st, old)
  else
    match profileDid st old.user_id with
    | none => .ok (st, old)
    | some did =>
      if insertFails || st.federation_queue.any
          (fun r => r.key = (unrepost_entry old did).key) then
        .ok (st, old)
      else
        .ok ({ st with
                 federation_queue := st.federation_queue ++ [unrepost_entry old did] },
              old)

/-- The followed identity: `NEW.subject_did`, falling back to the profile of
`NEW.following_id`. -/
def followSubjectDid (st : FedState) (new : FollowRow) : Option String :=
  match new.subject_did with
  | some d => some d
  | none => profileDid st new.following_id

/-- `queue_follow_for_federation` (comprehensive-fix migration). -/
def queue_follow_for_federation (st : FedState) (new : FollowRow) (genRkey : String)
    (insertFails : Bool) : Except String (FedState × FollowRow) :=
  match profileDid st new.follower_id with
  | none => .ok (st, new)
  | some follower_did =>
    match followSubjectDid st new with
    | none => .ok (st, new)
    | some fdid =>
      let v_rkey := new.rkey.getD genRkey
      let v_at_uri := "at://" ++ follower_did ++ "/app.bsky.graph.follow/" ++ v_rkey
      let follows' := st.follows.map (fun f =>
        if f.id = new.id then
          { f with rkey := some v_rkey, at_uri := some v_at_uri,
                   subject_did := some fdid }
        else f)
      let entry : FQEntry :=
        { record_type := "follow", record_id := new.id, user_did := follower_did,
          collection := "app.bsky.graph.follow",
          rkey := some v_rkey, at_uri := some v_at_uri,
          record_data := some (.followData fdid),
          operation := "create", status := "pending",
          attempts := 0, last_error := none }
      if insertFails then .error "federation_queue insert failed"
      else .ok ({ st with
                    follows := follows',
                    federation_queue := fqUpsert st.federation_queue entry }, new)

/-- `queue_unfollow_for_federation`. -/
def queue_unfollow_for_federation (st : FedState) (old : FollowRow)
    (insertFails : Bool) : Except String (FedState × FollowRow) :=
  if old.at_uri = none then .ok (st, old)
  else
    match profileDid st old.follower_id with
    | none => .ok (st, old)
    | some did =>
      let entry : FQEntry :=
        { record_type := "follow", record_id := old.id, user_did := did,
          collection := "app.bsky.graph.follow",
          rkey := old.rkey, at_uri := old.at_uri,
          record_data := none,
          operation := "delete", status := "pending",
          attempts := 0, last_error := none }
      if insertFails then .error "federation_queue insert failed"
      else .ok ({ st with
                  federation_queue := fqUpsertDelete st.federation_queue entry },
                old)

/-- States reachable from an empty outbox by any sequence of staging
triggers (the outbox table starts empty; aborted transactions leave the
state unchanged, so only `.ok` transitions extend reachability). -/
inductive FedReach : FedState → Prop where
  | init (profiles : List ProfileRow) (posts : List PostRow) (likes : List LikeRow)
      (reposts : List RepostRow) (follows : List FollowRow) :
      FedReach ⟨profiles, posts, likes, reposts, follows, []⟩
  | postCreate {st st' : FedState} {new : PostRow} {gen : String} {b : Bool}
      {r : PostRow} : FedReach st →
      queue_post_for_federation st new gen b = .ok (st', r) → FedReach st'
  | postDelete {st st' : FedState} {old : PostRow} {b : Bool} {r : PostRow} :
      FedReach st →
      queue_post_deletion_for_federation st old b = .ok (st', r) → FedReach st'
  | likeCreate {st st' : FedState} {new : LikeRow} {gen : String} {b : Bool}
      {r : LikeRow} : FedReach st →
      queue_like_for_federation st new gen b = .ok (st', r) → FedReach st'
  | likeDelete {st st' : FedState} {old : LikeRow} {b : Bool} {r : LikeRow} :
      FedReach st →
      queue_unlike_for_federation st old b = .ok (st', r) → FedReach st'
  | repostCreate {st st' : FedState} {new : RepostRow} {gen : String} {b : Bool}
      {r : RepostRow} : FedReach st →
      queue_repost_for_federation st new gen b = .ok (st', r) → FedReach st'
  | repostDelete {st st' : FedState} {old : RepostRow} {b : Bool} {r : RepostRow} :
      FedReach st →
      queue_unrepost_for_federation st old b = .ok (st', r) → FedReach st'
  | followCreate {st st' : FedState} {new : FollowRow} {gen : String} {b : Bool}
      {r : FollowRow} : FedReach st →
      queue_follow_for_federation st new gen b = .ok (st', r) → FedReach st'
  | followDelete {st st' : FedState} {old : FollowRow} {b : Bool} {r : FollowRow} :
      FedReach st →
      queue_unfollow_for_federation st old b = .ok (st', r) → FedReach st'

/-! ### Event ingester: notifications from Jetstream events

Source: supabase/functions/process-jetstream-event/index.ts.  The Supabase
tables this function touches are modelled with their own row shapes (it
queries `posts.atproto_uri`, not the `at_uri` column of the trigger layer).
The remote `getActorProfile` fetch is an explicit `actorProfile` argument;
the insert is assumed to succeed (its error path only logs). -/

/-- Substring containment, `String.includes` of JS. -/
def strIncludes (needle hay : String) : Bool :=
  (List.range (hay.toList.length + 1)).any (fun i =>
    (hay.toList.drop i).take needle.toList.length = needle.toList)

/-- JS `a || b` for an optional string field: `undefined` and `""` both fall
through to the default. -/
def jsOrStr (a : Option String) (b : String) : String :=
  match a with
  | some s => if s = "" then b else s
  | none => b

structure AVProfile where
  id : Nat
  did : String
deriving DecidableEq, Repr

structure AVPost where
  id : Nat
  user_id : Nat
  atproto_uri : String
deriving DecidableEq, Repr

structure NotificationRow where
  user_id : Nat
  reason : String
  post_id : Option Nat
  is_external : Bool
  actor_id : Option Nat
  actor_did : String
  actor_handle : String
  actor_display_name : String
  actor_avatar : Option String
  is_read : Bool
deriving DecidableEq, Repr

structure BskyActorProfile where
  handle : Option String
  displayName : Option String
  avatar : Option String
deriving DecidableEq, Repr

structure AVState where
  profiles : List AVProfile
  posts : List AVPost
  notifications : List NotificationRow
deriving DecidableEq, Repr

/-- The flattened JSON paths the processor reads from `event.record`. -/
structure JetRecord where
  subject_uri : Option String
  subject_did : Option String
  reply_parent_uri : Option String
  embed_record_uri : Option String
deriving DecidableEq, Repr

structure JetEvent where
  actorDid : String
  collection : String
  operation : String
  record : JetRecord
  rkey : String
deriving DecidableEq, Repr

/-- Result object `(created, reason-or-type string)` returned by the
processors. -/
structure CreateResult where
  created : Bool
  note : String
deriving DecidableEq, Repr

def CANNECT_DOMAIN : String := "cannect.space"

def findUserByDid (st : AVState) (did : String) : Option AVProfile :=
  st.profiles.find? (fun p => p.did = did)

def findPostByUri (st : AVState) (uri : String) : Option AVPost :=
  st.posts.find? (fun p => p.atproto_uri = uri)

/-- `createNotification`: dedup check on
`(user_id, reason, actor_did, is_external = true)` — note that `post_id` is
not part of the check — then insert. -/
def createNotification (st : AVState) (actorProfile : Option BskyActorProfile)
    (userId : Nat) (actorDid : String) (reason : String) (postId : Option Nat) :
    AVState × CreateResult :=
  let actorHandle := jsOrStr (actorProfile.bind (fun p => p.handle)) actorDid
  let actorName := jsOrStr (actorProfile.bind (fun p => p.displayName)) actorHandle
  if st.notifications.any (fun n =>
      n.user_id = userId ∧ n.reason = reason ∧ n.actor_did = actorDid ∧
      n.is_external = true) then
    (st, ⟨false, "duplicate"⟩)
  else
    let row : NotificationRow :=
      { user_id := userId, reason := reason, post_id := postId,
        is_external := true, actor_id := none, actor_did := actorDid,
        actor_handle := actorHandle, actor_display_name := actorName,
        actor_avatar := actorProfile.bind (fun p => p.avatar),
        is_read := false }
    ({ st with notifications := st.notifications ++ [row] }, ⟨true, reason⟩)

/-- `processLike`. -/
def processLike (st : AVState) (ev : JetEvent)
    (actorProfile : Option BskyActorProfile) : AVState × CreateResult :=
  match ev.record.subject_uri with
  | none => (st, ⟨false, "not cannect content"⟩)
  | some subjectUri =>
    if ¬ strIncludes CANNECT_DOMAIN subjectUri then
      (st, ⟨false, "not cannect content"⟩)
    else
      match findPostByUri st subjectUri with
      | none => (st, ⟨false, "post not found"⟩)
      | some post =>
        let actor := findUserByDid st ev.actorDid
        if actor.map (fun a => a.id) = some post.user_id then
          (st, ⟨false, "self-like"⟩)
        else
          createNotification st actorProfile post.user_id ev.actorDid "like"
            (some post.id)

/-- `processRepost`. -/
def processRepost (st : AVState) (ev : JetEvent)
    (actorProfile : Option BskyActorProfile) : AVState × CreateResult :=
  match ev.record.subject_uri with
  | none => (st, ⟨false, "not cannect content"⟩)
  | some subjectUri =>
    if ¬ strIncludes CANNECT_DOMAIN subjectUri then
      (st, ⟨false, "not cannect content"⟩)
    else
      match findPostByUri st subjectUri with
      | none => (st, ⟨false, "post not found"⟩)
      | some post =>
        let actor := findUserByDid st ev.actorDid
        if actor.map (fun a => a.id) = some post.user_id then
          (st, ⟨false, "self-repost"⟩)
        else
          createNotification st actorProfile post.user_id ev.actorDid "repost"
            (some post.id)

/-- `processPost`: the reply branch, then (falling through when it does not
create) the quote branch. -/
def processPost (st : AVState) (ev : JetEvent)
    (actorProfile : Option BskyActorProfile) : AVState × CreateResult :=
  let replyStep : Option (AVState × CreateResult) :=
    match ev.record.reply_parent_uri with
    | some parentUri =>
      if strIncludes CANNECT_DOMAIN parentUri then
        match findPostByUri st parentUri with
        | some post =>
          let actor := findUserByDid st ev.actorDid
          if actor.map (fun a => a.id) ≠ some post.user_id then
            some (createNotification st actorProfile post.user_id ev.actorDid
              "reply" (some post.id))
          else none
        | none => none
      else none
    | none => none
  match replyStep with
  | some res => res
  | none =>
    let quoteStep : Option (AVState × CreateResult) :=
      match ev.record.embed_record_uri with
      | some quotedUri =>
        if strIncludes CANNECT_DOMAIN quotedUri then
          match findPostByUri st quotedUri with
          | some post =>
            let actor := findUserByDid st ev.actorDid
            if actor.map (fun a => a.id) ≠ some post.user_id then
              some (createNotification st actorProfile post.user_id ev.actorDid
                "quote" (some post.id))
            else none
          | none => none
        else none
      | none => none
    match quoteStep with
    | some res => res
    | none => (st, ⟨false, "not relevant"⟩)

/-- `processFollow`. -/
def processFollow (st : AVState) (ev : JetEvent)
    (actorProfile : Option BskyActorProfile) : AVState × CreateResult :=
  match ev.record.subject_did with
  | none => (st, ⟨false, "no subject"⟩)
  | some subjectDid =>
    match findUserByDid st subjectDid with
    | none => (st, ⟨false, "target not cannect user"⟩)
    | some targetUser =>
      let actor := findUserByDid st ev.actorDid
      if actor.map (fun a => a.id) = some targetUser.id then
        (st, ⟨false, "self-follow"⟩)
      else
        createNotification st actorProfile targetUser.id ev.actorDid "follow"
          none

/-- The request handler dispatch (create operations only, by collection). -/
def processEvent (st : AVState) (ev : JetEvent)
    (actorProfile : Option BskyActorProfile) : AVState × CreateResult :=
  if ev.operation ≠ "create" then (st, ⟨false, "not create operation"⟩)
  else if ev.collection = "app.bsky.feed.like" then processLike st ev actorProfile
  else if ev.collection = "app.bsky.feed.repost" then processRepost st ev actorProfile
  else if ev.collection = "app.bsky.feed.post" then processPost st ev actorProfile
  else if ev.collection = "app.bsky.graph.follow" then processFollow st ev actorProfile
  else (st, ⟨false, "unknown collection"⟩)

/-! ### Feed inclusion predicate

Source: the feed-logic module of the feed generator (CANNABIS_KEYWORDS,
CANNABIS_REGEX, shouldIncludePost).  The compiled pattern
`\b(kw1|kw2|...)\b` with flag `i` is modelled positionally: a match is a
case-insensitive occurrence of one keyword with a word/non-word boundary on
each side (`\w` is `[A-Za-z0-9_]`; every keyword starts and ends with a word
character, so each `\b` reduces to the neighbouring outside character not
being a word character). -/

def CANNABIS_KEYWORDS : List String :=
  ["cannabis", "marijuana", "weed", "thc", "cbd", "sativa", "indica",
   "hybrid strain",
   "dispensary", "edible", "edibles", "joint", "blunt", "bong", "dab",
   "dabbing", "dabs", "vape cart", "vape pen",
   "420", "4/20", "stoner", "stoned", "high af", "wake and bake",
   "kush", "strain", "strains", "terpene", "terpenes", "terps",
   "concentrates", "flower", "pre-roll", "preroll", "live rosin",
   "live resin", "hash", "hashish",
   "medical marijuana", "mmj", "medical cannabis",
   "cannabusiness", "cannabis industry", "grow op", "cultivation", "grower"]

/-- JS regex `\w`: ASCII letters, digits and underscore. -/
def isWordChar (c : Char) : Bool := c.isAlphanum || c = '_'

/-- Case-insensitive character comparison (flag `i` on ASCII keywords). -/
def charEqCI (a b : Char) : Bool := a.toLower = b.toLower

/-- The keyword is a case-insensitive prefix of the text. -/
def matchesCI : List Char → List Char → Bool
  | [], _ => true
  | _ :: _, [] => false
  | k :: ks, t :: ts => charEqCI t k && matchesCI ks ts

def wordAt (text : List Char) (i : Nat) : Bool :=
  match text[i]? with
  | some c => isWordChar c
  | none => false

/-- `\b` at the gap before position `i`: the characters on the two sides
differ in word-ness (out of range counts as non-word). -/
def boundaryAt (text : List Char) (i : Nat) : Bool :=
  (if i = 0 then false else wordAt text (i - 1)) != wordAt text i

def kwMatchAt (kw text : List Char) (i : Nat) : Bool :=
  boundaryAt text i && matchesCI kw (text.drop i) &&
    boundaryAt text (i + kw.length)

/-- `CANNABIS_REGEX.test(text)`. -/
def cannabisRegexTest (text : String) : Bool :=
  CANNABIS_KEYWORDS.any (fun kw =>
    (List.range (text.toList.length + 1)).any (fun i =>
      kwMatchAt kw.toList text.toList i))

structure IncludeResult where
  included : Bool
  reason : String
deriving DecidableEq, Repr

/-- JS `s.endsWith(suffix)`, over the characters of the strings. -/
def strEndsWith (s suffix : String) : Bool :=
  suffix.toList.length ≤ s.toList.length ∧
    s.toList.drop (s.toList.length - suffix.toList.length) = suffix.toList

/-- `shouldIncludePost(authorHandle, text)`; the `authorHandle &&` / `text &&`
guards are JS truthiness, falsy for the empty string. -/
def shouldIncludePost (authorHandle text : String) : IncludeResult :=
  if authorHandle ≠ "" ∧ strEndsWith authorHandle ".cannect.space" then
    ⟨true, "cannect_user"⟩
  else if text ≠ "" ∧ cannabisRegexTest text then ⟨true, "keyword_match"⟩
  else ⟨false, "no_match"⟩

/-! ### Feed skeleton endpoint

Source: the `getFeedSkeleton` route of scripts/feed-vps/index.js.  JS
`parseInt` is modelled for decimal inputs (optional sign after whitespace;
radix prefixes do not occur in query parameters).  `db.getPosts` lives in
feed-vps/db.js, which is not part of the sources. -/

/-- Value of a digit run, MSD first. -/
def digitsVal (ds : List Char) : Nat :=
  ds.foldl (fun a c => a * 10 + (c.toNat - Char.toNat '0')) 0

def parseNatPrefix (cs : List Char) : Option Nat :=
  let ds := cs.takeWhile Char.isDigit
  if ds.isEmpty then none else some (digitsVal ds)

/-- JS `parseInt(s)` (decimal): NaN is `none`. -/
def jsParseInt (s : String) : Option Int :=
  match s.toList.dropWhile Char.isWhitespace with
  | '-' :: rest => (parseNatPrefix rest).map (fun n => -(n : Int))
  | '+' :: rest => (parseNatPrefix rest).map (fun n => (n : Int))
  | cs => (parseNatPrefix cs).map (fun n => (n : Int))

/-- JS `x || d` on a number: NaN and 0 both fall through to the default. -/
def jsOrNum (v : Option Int) (dflt : Int) : Int :=
  match v with
  | some n => if n = 0 then dflt else n
  | none => dflt

/-- `Math.min(parseInt(req.query.limit) || 30, 100)`. -/
def effectiveLimit (limitParam : Option String) : Int :=
  min (jsOrNum (limitParam.bind jsParseInt) 30) 100

/-- `parseInt(cursor.split(':')[1]) || 0`, with offset 0 when no cursor. -/
def cursorOffset (cursorParam : Option String) : Int :=
  match cursorParam with
  | none => 0
  | some c => jsOrNum (((c.splitOn ":").get? 1).bind jsParseInt) 0

/-- Modelled from the spec: `db.getPosts(limit, offset)` (feed-vps/db.js is
not among the sources).  The index is kept newest first; the call returns
the slice of at most `lim` URIs starting at `off`. -/
def getPosts (index : List String) (lim off : Int) : List String :=
  (index.drop off.toNat).take lim.toNat

structure FeedResponse where
  feed : List String
  cursor : Option String
deriving DecidableEq, Repr

/-- The `getFeedSkeleton` route body: clamp the limit, parse the cursor,
fetch the slice, and attach a continuation cursor when the returned slice is
full (`posts.length === limit`). -/
def getFeedSkeleton (index : List String) (limitParam cursorParam : Option String)
    (now : Nat) : FeedResponse :=
  let lim := effectiveLimit limitParam
  let off := cursorOffset cursorParam
  let posts := getPosts index lim off
  { feed := posts,
    cursor :=
      if (posts.length : Int) = lim then
        some (toString now ++ ":" ++ toString (off + lim))
      else none }

/-! ### Sync worker retry ceiling

Modelled from the spec: the Sync Worker that drains `federation_queue` is
not among the sources (only the queue columns `status`, `attempts`,
`last_error` it operates on appear in the migrations).  Following §4.2 and
Scenario E: transient errors increment `attempts` and reset the entry to
`pending`; when the counter reaches the ceiling of 5 the entry becomes
`failed` with `last_error` recorded, and the worker only ever attempts
entries whose status is `pending`, so no 6th attempt occurs. -/

def MAX_ATTEMPTS : Nat := 5

inductive DeliveryOutcome where
  | success (uri cid : String)
  | alreadyExists
  | transientFailure (msg : String)
deriving DecidableEq, Repr

/-- Modelled from the spec: the worker's handling of one delivery outcome
for a claimed entry. -/
def syncApplyOutcome (e : FQEntry) (o : DeliveryOutcome) : FQEntry :=
  match o with
  | .success _ _ => { e with status := "done" }
  | .alreadyExists => { e with status := "done" }
  | .transientFailure msg =>
    let a := e.attempts + 1
    if MAX_ATTEMPTS ≤ a then
      { e with status := "failed", attempts := a, last_error := some msg }
    else
      { e with status := "pending", attempts := a, last_error := some msg }

/-- Modelled from the spec: one poll cycle over a single entry; only
`pending` entries are attempted.  The Bool records whether a delivery
attempt was made. -/
def syncCycle (e : FQEntry) (o : DeliveryOutcome) : FQEntry × Bool :=
  if e.status = "pending" then (syncApplyOutcome e o, true) else (e, false)

/-- Run successive poll cycles, returning the final entry and the number of
delivery attempts made. -/
def runCycles : FQEntry → List DeliveryOutcome → FQEntry × Nat
  | e, [] => (e, 0)
  | e, o :: os =>
    let step := syncCycle e o
    let rest := runCycles step.1 os
    (rest.1, rest.2 + if step.2 then 1 else 0)

/-! ### Concrete sample data used by witnesses and counterexamples -/

/-- The predicate of claim C2 on a record payload: a like/repost payload
always carries both subject uri and subject cid. -/
def subjectOk (d : Option FQRecordData) : Prop :=
  ∀ u c, d = some (.likeData u c) ∨ d = some (.repostData u c) →
    u.isSome ∧ c.isSome

/-- A failed like-create outbox row for like 5, awaiting re-staging. -/
def c1_failed_like_entry : FQEntry :=
  { record_type := "like", record_id := 5, user_did := "did:plc:alice",
    collection := "app.bsky.feed.like", rkey := some "rk5",
    at_uri := some "at://did:plc:alice/app.bsky.feed.like/rk5",
    record_data := some (.likeData (some "at://p9") (some "cid9")),
    operation := "create", status := "failed", attempts := 4,
    last_error := some "boom" }

/-- The like row being re-staged (its subject is already resolved). -/
def c1_restage_like : LikeRow :=
  ⟨5, 1, some 9, some "rk5", some "at://did:plc:alice/app.bsky.feed.like/rk5",
   some "at://p9", some "cid9"⟩

/-- A state whose outbox already holds the failed like-create row. -/
def c1_restage_state : FedState :=
  ⟨[⟨1, some "did:plc:alice", none⟩], [], [c1_restage_like], [], [],
   [c1_failed_like_entry]⟩

/-- A previously failed outbox row for like 1. -/
def restage_old_entry : FQEntry :=
  { record_type := "like", record_id := 1, user_did := "did:plc:alice",
    collection := "app.bsky.feed.like", rkey := some "rk1",
    at_uri := some "at://did:plc:alice/app.bsky.feed.like/rk1",
    record_data := some (.likeData (some "at://p") (some "cid-old")),
    operation := "create", status := "failed", attempts := 4,
    last_error := some "boom" }

/-- Re-staging the same logical like with fresh payload. -/
def restage_new_entry : FQEntry :=
  { record_type := "like", record_id := 1, user_did := "did:plc:alice",
    collection := "app.bsky.feed.like", rkey := some "rk1",
    at_uri := some "at://did:plc:alice/app.bsky.feed.like/rk1",
    record_data := some (.likeData (some "at://p") (some "cid-new")),
    operation := "create", status := "pending", attempts := 0,
    last_error := none }

/-- A state with one federated profile and no posts, so a like's subject can
never resolve. -/
def c2_skip_state : FedState :=
  ⟨[⟨1, some "did:plc:alice", none⟩], [], [], [], [], []⟩

/-- A like of a missing post (id 9), with no cached subject uri/cid. -/
def c2_skip_like : LikeRow := ⟨5, 1, some 9, none, none, none, none⟩

/-- A state with one federated profile. -/
def c6_state : FedState :=
  ⟨[⟨1, some "did:plc:alice", some "alice"⟩], [], [], [], [], []⟩

/-- A fresh post by that profile. -/
def c6_post : PostRow :=
  ⟨2, 1, some "hello", none, none, none, none, none, false, none, none, none,
   none⟩

/-- AppView state: post 2 belongs to Cannect user 42; a like notification
from the external actor already exists for a DIFFERENT post (post 1). -/
def c4_state : AVState :=
  ⟨[],
   [⟨2, 42, "at://cannect.space/post/2"⟩],
   [⟨42, "like", some 1, true, none, "did:ext", "ext.bsky.social", "Ext",
     none, false⟩]⟩

/-- The external actor likes post 2 of the same owner. -/
def c4_event : JetEvent :=
  ⟨"did:ext", "app.bsky.feed.like", "create",
   ⟨some "at://cannect.space/post/2", none, none, none⟩, "rk"⟩

/-- AppView state for the C9 witness: user 7 owns post 3. -/
def c9_state : AVState :=
  ⟨[⟨7, "did:plc:owner"⟩], [⟨3, 7, "at://cannect.space/post/3"⟩], []⟩

/-- The owner likes their own post. -/
def c9_self_like_event : JetEvent :=
  ⟨"did:plc:owner", "app.bsky.feed.like", "create",
   ⟨some "at://cannect.space/post/3", none, none, none⟩, "rk"⟩

/-- A stranger (no local profile) follows user 7. -/
def c9_follow_event : JetEvent :=
  ⟨"did:plc:stranger", "app.bsky.graph.follow", "create",
   ⟨none, some "did:plc:owner", none, none⟩, "rk"⟩

/-- A fresh pending outbox entry. -/
def c5_entry : FQEntry :=
  { record_type := "post", record_id := 1, user_did := "did:plc:alice",
    collection := "app.bsky.feed.post", rkey := some "rk",
    at_uri := some "at://did:plc:alice/app.bsky.feed.post/rk",
    record_data := some (.postData "hello" none none),
    operation := "create", status := "pending", attempts := 0,
    last_error := none }

/-! ## Theorems -/



theorem shiftLeft_lor_eq_add (n : Nat) :
    ∀ t c : Nat, c < 2 ^ n → (t <<< n) ||| c = t * 2 ^ n + c := by
  induction n with
  | zero =>
    intro t c hc
    interval_cases c
    simp [Nat.shiftLeft_eq]
  | succ n ih =>
    intro t c hc
    have hdecomp : c = Nat.bit c.bodd c.div2 := (Nat.bit_decomp c).symm
    have hshift : t <<< (n + 1) = Nat.bit false (t <<< n) := by
      simp [Nat.bit_val, Nat.shiftLeft_eq, Nat.pow_succ]
      ring
    have hdiv2 : c.div2 < 2 ^ n := by
      have h := Nat.bit_lt_two_pow_succ_iff (b := c.bodd) (x := c.div2) (n := n)
      rw [Nat.bit_decomp] at h
      exact h.mp hc
    rw [hshift]
    conv_lhs => rw [hdecomp]
    rw [Nat.lor_bit, ih _ _ hdiv2]
    have hc2 : c.bodd.toNat + 2 * c.div2 = c := Nat.bodd_add_div2 c
    simp only [Bool.false_or, Nat.bit_val, Nat.shiftLeft_eq, Nat.pow_succ]
    have hr : t * (2 ^ n * 2) = 2 * (t * 2 ^ n) := by ring
    rw [hr]
    omega

theorem and31_eq_mod (v : Nat) : v &&& 31 = v % 32 := by
  have h : (31 : Nat) = 2 ^ 5 - 1 := by norm_num
  rw [h, Nat.and_pow_two_sub_one_eq_mod]

theorem shift5_eq_div (v : Nat) : v >>> 5 = v / 32 := by
  rw [Nat.shiftRight_eq_div_pow]

theorem tidLoop_eq_digits : ∀ (k v : Nat) (acc : List Char),
    tidLoop k v acc = (tidDigitsBE k v).map tidChar ++ acc := by
  intro k
  induction k with
  | zero => intro v acc; simp [tidLoop, tidDigitsBE]
  | succ k ih =>
    intro v acc
    rw [tidLoop, tidDigitsBE, ih, shift5_eq_div]
    have hchar : tidChar (v &&& 31) = tidChar (v % 32) := by
      rw [and31_eq_mod]
    rw [hchar]
    simp

theorem tidDigitsBE_length (k : Nat) : ∀ v, (tidDigitsBE k v).length = k := by
  induction k with
  | zero => intro v; simp [tidDigitsBE]
  | succ k ih => intro v; simp [tidDigitsBE, ih]

theorem tidChar_mem (n : Nat) : tidChar n ∈ b32Chars := by
  rw [tidChar, and31_eq_mod]
  have h : n % 32 < b32Chars.length := by
    have hlen : b32Chars.length = 32 := by decide
    have := Nat.mod_lt n (y := 32) (by norm_num)
    omega
  rw [List.getD_eq_getElem _ _ h]
  exact List.getElem_mem h

theorem tidChar_mono : ∀ d2, d2 < 32 → ∀ d1, d1 < d2 → tidChar d1 < tidChar d2 := by
  decide

theorem lex_append_singleton_of_lex {r : Char → Char → Prop} :
    ∀ {l1 l2 : List Char}, List.Lex r l1 l2 → l1.length = l2.length →
      ∀ a b, List.Lex r (l1 ++ [a]) (l2 ++ [b]) := by
  intro l1 l2 h
  induction h with
  | nil => intro hlen; simp at hlen
  | rel hr => intro _ a b; exact List.Lex.rel hr
  | cons _ ih =>
    intro hlen a b
    simp only [List.length_cons, Nat.succ.injEq] at hlen
    exact List.Lex.cons (ih hlen a b)

theorem lex_append_singleton_self {r : Char → Char → Prop} (l : List Char)
    {a b : Char} (h : r a b) : List.Lex r (l ++ [a]) (l ++ [b]) := by
  induction l with
  | nil => exact List.Lex.rel h
  | cons x xs ih => exact List.Lex.cons ih

theorem tid_digits_lex : ∀ (k v1 v2 : Nat), v1 < v2 → v2 < 32 ^ k →
    List.Lex (· < ·) ((tidDigitsBE k v1).map tidChar) ((tidDigitsBE k v2).map tidChar) := by
  intro k
  induction k with
  | zero => intro v1 v2 h12 h2; simp at h2; omega
  | succ k ih =>
    intro v1 v2 h12 h2
    have hq : v1 / 32 ≤ v2 / 32 := Nat.div_le_div_right (Nat.le_of_lt h12)
    have hq2 : v2 / 32 < 32 ^ k := by
      rw [Nat.div_lt_iff_lt_mul (by norm_num)]
      calc v2 < 32 ^ (k + 1) := h2
        _ = 32 ^ k * 32 := by ring
    rcases Nat.lt_or_ge (v1 / 32) (v2 / 32) with hlt | hge
    · have hlex := ih _ _ hlt hq2
      simp only [tidDigitsBE, List.map_append, List.map_cons, List.map_nil]
      exact lex_append_singleton_of_lex hlex
        (by simp [tidDigitsBE_length]) _ _
    · have heq : v1 / 32 = v2 / 32 := Nat.le_antisymm hq hge
      have hmod : v1 % 32 < v2 % 32 := by
        have e1 := Nat.div_add_mod v1 32
        have e2 := Nat.div_add_mod v2 32
        omega
      simp only [tidDigitsBE, heq, List.map_append, List.map_cons, List.map_nil]
      exact lex_append_singleton_self _
        (tidChar_mono _ (Nat.mod_lt _ (by norm_num)) _ hmod)



theorem combined64_eq (t c : Nat) (ht : t < 2 ^ 53) (hc : c < 2 ^ 10) :
    combined64 t c = t * 2 ^ 10 + c := by
  rw [combined64, shiftLeft_lor_eq_add 10 t c hc]
  apply Nat.mod_eq_of_lt
  have h1 : t * 2 ^ 10 + c < 2 ^ 53 * 2 ^ 10 := by
    have : (t + 1) * 2 ^ 10 ≤ 2 ^ 53 * 2 ^ 10 :=
      Nat.mul_le_mul_right _ (by omega)
    have h2 : (t + 1) * 2 ^ 10 = t * 2 ^ 10 + 2 ^ 10 := by ring
    omega
  calc t * 2 ^ 10 + c < 2 ^ 53 * 2 ^ 10 := h1
    _ < 2 ^ 64 := by norm_num

theorem signExtend65_small (w : Nat) (h : w < 2 ^ 63) : signExtend65 w = w := by
  rw [signExtend65, Nat.div_eq_of_lt h]
  simp

/-- C3: every string returned by generate_tid is exactly 13 characters over
the 32-symbol sortable alphabet, and for microsecond timestamps t1 < t2 (53
bits, as the source documents) and any 10-bit clock values, the encoding of
(t1 << 10 | c1) is lexicographically below the encoding of (t2 << 10 | c2). -/
theorem c3_generate_tid_sortable :
    (∀ t c : Nat, (generate_tid t c).length = 13 ∧
      ∀ ch ∈ (generate_tid t c).toList, ch ∈ b32Chars) ∧
    (∀ t1 t2 c1 c2 : Nat, t1 < t2 → t2 < 2 ^ 53 → c1 < 2 ^ 10 → c2 < 2 ^ 10 →
      generate_tid t1 c1 < generate_tid t2 c2) := by
  constructor
  · intro t c
    constructor
    · show (tidLoop 13 _ []).length = 13
      rw [tidLoop_eq_digits]
      simp [tidDigitsBE_length]
    · intro ch hch
      have h : (generate_tid t c).toList =
          (tidDigitsBE 13 (signExtend65 (combined64 t c))).map tidChar := by
        show tidLoop 13 _ [] = _
        rw [tidLoop_eq_digits]
        simp
      rw [h] at hch
      obtain ⟨d, _, rfl⟩ := List.mem_map.mp hch
      exact tidChar_mem d
  · intro t1 t2 c1 c2 h12 ht2 hc1 hc2
    have ht1 : t1 < 2 ^ 53 := lt_trans h12 ht2
    have hv1 : combined64 t1 c1 = t1 * 2 ^ 10 + c1 := combined64_eq _ _ ht1 hc1
    have hv2 : combined64 t2 c2 = t2 * 2 ^ 10 + c2 := combined64_eq _ _ ht2 hc2
    have hb1 : t1 * 2 ^ 10 + c1 < 2 ^ 63 := by
      have : (t1 + 1) * 2 ^ 10 ≤ 2 ^ 53 * 2 ^ 10 := Nat.mul_le_mul_right _ (by omega)
      have h2 : (t1 + 1) * 2 ^ 10 = t1 * 2 ^ 10 + 2 ^ 10 := by ring
      have h3 : (2:Nat) ^ 53 * 2 ^ 10 ≤ 2 ^ 63 := by norm_num
      omega
    have hb2 : t2 * 2 ^ 10 + c2 < 2 ^ 63 := by
      have : (t2 + 1) * 2 ^ 10 ≤ 2 ^ 53 * 2 ^ 10 := Nat.mul_le_mul_right _ (by omega)
      have h2 : (t2 + 1) * 2 ^ 10 = t2 * 2 ^ 10 + 2 ^ 10 := by ring
      have h3 : (2:Nat) ^ 53 * 2 ^ 10 ≤ 2 ^ 63 := by norm_num
      omega
    have hlt : t1 * 2 ^ 10 + c1 < t2 * 2 ^ 10 + c2 := by
      have hstep : (t1 + 1) * 2 ^ 10 ≤ t2 * 2 ^ 10 := Nat.mul_le_mul_right _ (by omega)
      have h2 : (t1 + 1) * 2 ^ 10 = t1 * 2 ^ 10 + 2 ^ 10 := by ring
      omega
    rw [String.lt_iff_toList_lt]
    show List.Lex (· < ·) (generate_tid t1 c1).toList (generate_tid t2 c2).toList
    have e1 : (generate_tid t1 c1).toList = (tidDigitsBE 13 (t1 * 2 ^ 10 + c1)).map tidChar := by
      show tidLoop 13 _ [] = _
      rw [hv1, signExtend65_small _ hb1, tidLoop_eq_digits]
      simp
    have e2 : (generate_tid t2 c2).toList = (tidDigitsBE 13 (t2 * 2 ^ 10 + c2)).map tidChar := by
      show tidLoop 13 _ [] = _
      rw [hv2, signExtend65_small _ hb2, tidLoop_eq_digits]
      simp
    rw [e1, e2]
    apply tid_digits_lex _ _ _ hlt
    calc t2 * 2 ^ 10 + c2 < 2 ^ 63 := hb2
      _ < 32 ^ 13 := by norm_num

/-- Witness for C3 at t1 = 1, t2 = 2, c1 = 1023, c2 = 0. -/
theorem c3_witness :
    (1 : Nat) < 2 ∧ generate_tid 1 1023 < generate_tid 2 0 :=
  ⟨by norm_num,
   c3_generate_tid_sortable.2 1 2 1023 0 (by norm_num) (by norm_num)
     (by norm_num) (by norm_num)⟩


theorem fqUpsert_keys_hit (q : List FQEntry) (e : FQEntry)
    (h : q.any (fun r => r.key = e.key)) :
    (fqUpsert q e).map FQEntry.key = q.map FQEntry.key := by
  rw [fqUpsert, if_pos h, List.map_map]
  apply List.map_congr_left
  intro r _
  show FQEntry.key (if r.key = e.key then _ else r) = r.key
  by_cases hk : r.key = e.key
  · rw [if_pos hk]; rfl
  · rw [if_neg hk]

theorem fqUpsert_keys_miss (q : List FQEntry) (e : FQEntry)
    (h : ¬ q.any (fun r => r.key = e.key)) :
    (fqUpsert q e).map FQEntry.key = q.map FQEntry.key ++ [e.key] := by
  rw [fqUpsert, if_neg h, List.map_append]
  simp

theorem fqUpsertDelete_keys_hit (q : List FQEntry) (e : FQEntry)
    (h : q.any (fun r => r.key = e.key)) :
    (fqUpsertDelete q e).map FQEntry.key = q.map FQEntry.key := by
  rw [fqUpsertDelete, if_pos h, List.map_map]
  apply List.map_congr_left
  intro r _
  show FQEntry.key (if r.key = e.key then _ else r) = r.key
  by_cases hk : r.key = e.key
  · rw [if_pos hk]; rfl
  · rw [if_neg hk]

theorem fqUpsertDelete_keys_miss (q : List FQEntry) (e : FQEntry)
    (h : ¬ q.any (fun r => r.key = e.key)) :
    (fqUpsertDelete q e).map FQEntry.key = q.map FQEntry.key ++ [e.key] := by
  rw [fqUpsertDelete, if_neg h, List.map_append]
  simp

theorem fqUpsert_nodup (q : List FQEntry) (e : FQEntry)
    (h : (q.map FQEntry.key).Nodup) : ((fqUpsert q e).map FQEntry.key).Nodup := by
  by_cases hhit : q.any (fun r => r.key = e.key)
  · rw [fqUpsert_keys_hit q e hhit]; exact h
  · rw [fqUpsert_keys_miss q e hhit]
    rw [List.nodup_append]
    refine ⟨h, List.nodup_singleton _, ?_⟩
    intro k hk
    simp only [List.any_eq_true, decide_eq_true_eq] at hhit
    simp only [List.mem_singleton]
    intro hke
    subst hke
    obtain ⟨r, hr, hrk⟩ := List.mem_map.mp hk
    exact hhit ⟨r, hr, hrk⟩

theorem fqUpsertDelete_nodup (q : List FQEntry) (e : FQEntry)
    (h : (q.map FQEntry.key).Nodup) :
    ((fqUpsertDelete q e).map FQEntry.key).Nodup := by
  by_cases hhit : q.any (fun r => r.key = e.key)
  · rw [fqUpsertDelete_keys_hit q e hhit]; exact h
  · rw [fqUpsertDelete_keys_miss q e hhit]
    rw [List.nodup_append]
    refine ⟨h, List.nodup_singleton _, ?_⟩
    intro k hk
    simp only [List.any_eq_true, decide_eq_true_eq] at hhit
    simp only [List.mem_singleton]
    intro hke
    subst hke
    obtain ⟨r, hr, hrk⟩ := List.mem_map.mp hk
    exact hhit ⟨r, hr, hrk⟩

theorem fqUpsert_data_prop (P : Option FQRecordData → Prop) (q : List FQEntry)
    (e : FQEntry) (hq : ∀ r ∈ q, P r.record_data) (he : P e.record_data) :
    ∀ r ∈ fqUpsert q e, P r.record_data := by
  intro r hr
  rw [fqUpsert] at hr
  split at hr
  · obtain ⟨r₀, hr₀, rfl⟩ := List.mem_map.mp hr
    by_cases hk : r₀.key = e.key
    · rw [if_pos hk]
      exact he
    · rw [if_neg hk]
      exact hq _ hr₀
  · rcases List.mem_append.mp hr with hm | hm
    · exact hq _ hm
    · rw [List.mem_singleton] at hm
      subst hm
      exact he

theorem fqUpsertDelete_data_prop (P : Option FQRecordData → Prop)
    (q : List FQEntry) (e : FQEntry) (hq : ∀ r ∈ q, P r.record_data)
    (he : P e.record_data) : ∀ r ∈ fqUpsertDelete q e, P r.record_data := by
  intro r hr
  rw [fqUpsertDelete] at hr
  split at hr
  · obtain ⟨r₀, hr₀, rfl⟩ := List.mem_map.mp hr
    by_cases hk : r₀.key = e.key
    · rw [if_pos hk]
      exact hq r₀ hr₀
    · rw [if_neg hk]
      exact hq r₀ hr₀
  · rcases List.mem_append.mp hr with hm | hm
    · exact hq _ hm
    · rw [List.mem_singleton] at hm
      subst hm
      exact he

/-- Appending a fresh-key row preserves key uniqueness (the no-conflict
branch of a staging insert). -/
theorem fq_append_nodup (q : List FQEntry) (e : FQEntry)
    (hmiss : ¬ q.any (fun r => r.key = e.key))
    (h : (q.map FQEntry.key).Nodup) :
    ((q ++ [e]).map FQEntry.key).Nodup := by
  rw [List.map_append, List.map_singleton, List.nodup_append]
  refine ⟨h, List.nodup_singleton _, ?_⟩
  intro k hk
  simp only [List.any_eq_true, decide_eq_true_eq] at hmiss
  simp only [List.mem_singleton]
  intro hke
  subst hke
  obtain ⟨r, hr, hrk⟩ := List.mem_map.mp hk
  exact hmiss ⟨r, hr, hrk⟩

theorem fq_append_data_prop (P : Option FQRecordData → Prop)
    (q : List FQEntry) (e : FQEntry) (hq : ∀ r ∈ q, P r.record_data)
    (he : P e.record_data) : ∀ r ∈ q ++ [e], P r.record_data := by
  intro r hr
  rcases List.mem_append.mp hr with hm | hm
  · exact hq _ hm
  · rw [List.mem_singleton] at hm
    subst hm
    exact he

theorem queue_post_queue_cases {st st' : FedState} {new : PostRow} {gen : String}
    {b : Bool} {r : PostRow}
    (h : queue_post_for_federation st new gen b = .ok (st', r)) :
    st'.federation_queue = st.federation_queue ∨
    ∃ e : FQEntry, st'.federation_queue = fqUpsert st.federation_queue e ∧
      ∃ text reply quote, e.record_data = some (.postData text reply quote) := by
  rw [queue_post_for_federation] at h
  split at h
  · left; cases h; rfl
  · split at h
    · exact absurd h (by simp)
    · right; cases h; exact ⟨_, rfl, _, _, _, rfl⟩

theorem queue_post_deletion_queue_cases {st st' : FedState} {old : PostRow}
    {b : Bool} {r : PostRow}
    (h : queue_post_deletion_for_federation st old b = .ok (st', r)) :
    st'.federation_queue = st.federation_queue ∨
    ∃ e : FQEntry, st'.federation_queue = fqUpsertDelete st.federation_queue e ∧
      e.record_data = none := by
  rw [queue_post_deletion_for_federation] at h
  split at h
  · left; cases h; rfl
  · split at h
    · left; cases h; rfl
    · split at h
      · split at h
        · exact absurd h (by simp)
        · right; cases h; exact ⟨_, rfl, rfl⟩
      · split at h
        · exact absurd h (by simp)
        · right; cases h; exact ⟨_, rfl, rfl⟩

theorem queue_like_queue_cases {st st' : FedState} {new : LikeRow} {gen : String}
    {b : Bool} {r : LikeRow}
    (h : queue_like_for_federation st new gen b = .ok (st', r)) :
    st'.federation_queue = st.federation_queue ∨
    ∃ e : FQEntry, st'.federation_queue = st.federation_queue ++ [e] ∧
      ¬ st.federation_queue.any (fun q => q.key = e.key) ∧
      ∃ u c, e.record_data = some (.likeData u c) ∧ u.isSome ∧ c.isSome := by
  rw [queue_like_for_federation] at h
  split at h
  · left; cases h; rfl
  · split at h
    · left; cases h; rfl
    · left; cases h; rfl
    · split at h
      · left; cases h; rfl
      · next hcond =>
        right
        cases h
        refine ⟨_, rfl, ?_, _, _, rfl, rfl, rfl⟩
        intro hany
        exact hcond (by rw [hany, Bool.or_true])

theorem queue_unlike_queue_cases {st st' : FedState} {old : LikeRow}
    {b : Bool} {r : LikeRow}
    (h : queue_unlike_for_federation st old b = .ok (st', r)) :
    st'.federation_queue = st.federation_queue ∨
    ∃ e : FQEntry, st'.federation_queue = st.federation_queue ++ [e] ∧
      ¬ st.federation_queue.any (fun q => q.key = e.key) ∧
      e.record_data = none := by
  rw [queue_unlike_for_federation] at h
  split at h
  · left; cases h; rfl
  · split at h
    · left; cases h; rfl
    · split at h
      · left; cases h; rfl
      · next hcond =>
        right
        cases h
        refine ⟨_, rfl, ?_, rfl⟩
        intro hany
        exact hcond (by rw [hany, Bool.or_true])

theorem queue_repost_queue_cases {st st' : FedState} {new : RepostRow}
    {gen : String} {b : Bool} {r : RepostRow}
    (h : queue_repost_for_federation st new gen b = .ok (st', r)) :
    st'.federation_queue = st.federation_queue ∨
    ∃ e : FQEntry, st'.federation_queue = st.federation_queue ++ [e] ∧
      ¬ st.federation_queue.any (fun q => q.key = e.key) ∧
      ∃ u c, e.record_data = some (.repostData u c) ∧ u.isSome ∧ c.isSome := by
  rw [queue_repost_for_federation] at h
  split at h
  · left; cases h; rfl
  · split at h
    · left; cases h; rfl
    · left; cases h; rfl
    · split at h
      · left; cases h; rfl
      · next hcond =>
        right
        cases h
        refine ⟨_, rfl, ?_, _, _, rfl, rfl, rfl⟩
        intro hany
        exact hcond (by rw [hany, Bool.or_true])

theorem queue_unrepost_queue_cases {st st' : FedState} {old : RepostRow}
    {b : Bool} {r : RepostRow}
    (h : queue_unrepost_for_federation st old b = .ok (st', r)) :
    st'.federation_queue = st.federation_queue ∨
    ∃ e : FQEntry, st'.federation_queue = st.federation_queue ++ [e] ∧
      ¬ st.federation_queue.any (fun q => q.key = e.key) ∧
      e.record_data = none := by
  rw [queue_unrepost_for_federation] at h
  split at h
  · left; cases h; rfl
  · split at h
    · left; cases h; rfl
    · split at h
      · left; cases h; rfl
      · next hcond =>
        right
        cases h
        refine ⟨_, rfl, ?_, rfl⟩
        intro hany
        exact hcond (by rw [hany, Bool.or_true])

theorem queue_follow_queue_cases {st st' : FedState} {new : FollowRow}
    {gen : String} {b : Bool} {r : FollowRow}
    (h : queue_follow_for_federation st new gen b = .ok (st', r)) :
    st'.federation_queue = st.federation_queue ∨
    ∃ e : FQEntry, st'.federation_queue = fqUpsert st.federation_queue e ∧
      ∃ d, e.record_data = some (.followData d) := by
  rw [queue_follow_for_federation] at h
  split at h
  · left; cases h; rfl
  · split at h
    · left; cases h; rfl
    · split at h
      · exact absurd h (by simp)
      · right; cases h; exact ⟨_, rfl, _, rfl⟩

theorem queue_unfollow_queue_cases {st st' : FedState} {old : FollowRow}
    {b : Bool} {r : FollowRow}
    (h : queue_unfollow_for_federation st old b = .ok (st', r)) :
    st'.federation_queue = st.federation_queue ∨
    ∃ e : FQEntry, st'.federation_queue = fqUpsertDelete st.federation_queue e ∧
      e.record_data = none := by
  rw [queue_unfollow_for_federation] at h
  split at h
  · left; cases h; rfl
  · split at h
    · left; cases h; rfl
    · split at h
      · exact absurd h (by simp)
      · right; cases h; exact ⟨_, rfl, rfl⟩



theorem fedReach_nodup {st : FedState} (h : FedReach st) :
    (st.federation_queue.map FQEntry.key).Nodup := by
  induction h with
  | init ps po li re fo => simp
  | postCreate hst hok ih =>
    rcases queue_post_queue_cases hok with heq | ⟨e, heq, _⟩
    · rw [heq]; exact ih
    · rw [heq]; exact fqUpsert_nodup _ _ ih
  | postDelete hst hok ih =>
    rcases queue_post_deletion_queue_cases hok with heq | ⟨e, heq, _⟩
    · rw [heq]; exact ih
    · rw [heq]; exact fqUpsertDelete_nodup _ _ ih
  | likeCreate hst hok ih =>
    rcases queue_like_queue_cases hok with heq | ⟨e, heq, hmiss, _⟩
    · rw [heq]; exact ih
    · rw [heq]; exact fq_append_nodup _ _ hmiss ih
  | likeDelete hst hok ih =>
    rcases queue_unlike_queue_cases hok with heq | ⟨e, heq, hmiss, _⟩
    · rw [heq]; exact ih
    · rw [heq]; exact fq_append_nodup _ _ hmiss ih
  | repostCreate hst hok ih =>
    rcases queue_repost_queue_cases hok with heq | ⟨e, heq, hmiss, _⟩
    · rw [heq]; exact ih
    · rw [heq]; exact fq_append_nodup _ _ hmiss ih
  | repostDelete hst hok ih =>
    rcases queue_unrepost_queue_cases hok with heq | ⟨e, heq, hmiss, _⟩
    · rw [heq]; exact ih
    · rw [heq]; exact fq_append_nodup _ _ hmiss ih
  | followCreate hst hok ih =>
    rcases queue_follow_queue_cases hok with heq | ⟨e, heq, _⟩
    · rw [heq]; exact ih
    · rw [heq]; exact fqUpsert_nodup _ _ ih
  | followDelete hst hok ih =>
    rcases queue_unfollow_queue_cases hok with heq | ⟨e, heq, _⟩
    · rw [heq]; exact ih
    · rw [heq]; exact fqUpsertDelete_nodup _ _ ih

theorem subjectOk_not_like_repost {d : Option FQRecordData}
    (hl : ∀ u c, d ≠ some (.likeData u c))
    (hr : ∀ u c, d ≠ some (.repostData u c)) : subjectOk d := by
  intro u c hc
  rcases hc with hc | hc
  · exact absurd hc (hl u c)
  · exact absurd hc (hr u c)

theorem fedReach_subjectOk {st : FedState} (h : FedReach st) :
    ∀ e ∈ st.federation_queue, subjectOk e.record_data := by
  induction h with
  | init ps po li re fo => intro e he; simp at he
  | postCreate hst hok ih =>
    rcases queue_post_queue_cases hok with heq | ⟨e, heq, t, rp, qe, hd⟩
    · rw [heq]; exact ih
    · rw [heq]
      apply fqUpsert_data_prop _ _ _ ih
      rw [hd]
      exact subjectOk_not_like_repost (by simp) (by simp)
  | postDelete hst hok ih =>
    rcases queue_post_deletion_queue_cases hok with heq | ⟨e, heq, hd⟩
    · rw [heq]; exact ih
    · rw [heq]
      apply fqUpsertDelete_data_prop _ _ _ ih
      rw [hd]
      exact subjectOk_not_like_repost (by simp) (by simp)
  | likeCreate hst hok ih =>
    rcases queue_like_queue_cases hok with heq | ⟨e, heq, hmiss, u, c, hd, hu, hc⟩
    · rw [heq]; exact ih
    · rw [heq]
      apply fq_append_data_prop _ _ _ ih
      rw [hd]
      intro u' c' hc'
      rcases hc' with hc' | hc'
      · cases hc'
        exact ⟨hu, hc⟩
      · cases hc'
  | likeDelete hst hok ih =>
    rcases queue_unlike_queue_cases hok with heq | ⟨e, heq, hmiss, hd⟩
    · rw [heq]; exact ih
    · rw [heq]
      apply fq_append_data_prop _ _ _ ih
      rw [hd]
      exact subjectOk_not_like_repost (by simp) (by simp)
  | repostCreate hst hok ih =>
    rcases queue_repost_queue_cases hok with heq | ⟨e, heq, hmiss, u, c, hd, hu, hc⟩
    · rw [heq]; exact ih
    · rw [heq]
      apply fq_append_data_prop _ _ _ ih
      rw [hd]
      intro u' c' hc'
      rcases hc' with hc' | hc'
      · cases hc'
      · cases hc'
        exact ⟨hu, hc⟩
  | repostDelete hst hok ih =>
    rcases queue_unrepost_queue_cases hok with heq | ⟨e, heq, hmiss, hd⟩
    · rw [heq]; exact ih
    · rw [heq]
      apply fq_append_data_prop _ _ _ ih
      rw [hd]
      exact subjectOk_not_like_repost (by simp) (by simp)
  | followCreate hst hok ih =>
    rcases queue_follow_queue_cases hok with heq | ⟨e, heq, d, hd⟩
    · rw [heq]; exact ih
    · rw [heq]
      apply fqUpsert_data_prop _ _ _ ih
      rw [hd]
      exact subjectOk_not_like_repost (by simp) (by simp)
  | followDelete hst hok ih =>
    rcases queue_unfollow_queue_cases hok with heq | ⟨e, heq, hd⟩
    · rw [heq]; exact ih
    · rw [heq]
      apply fqUpsertDelete_data_prop _ _ _ ih
      rw [hd]
      exact subjectOk_not_like_repost (by simp) (by simp)



/-- C1 counterexample: the operative like trigger (migration 20251221171000)
re-stages via a plain INSERT whose duplicate-key error its handler
swallows, so re-firing the trigger for like 5 -- whose outbox row sits at
status failed, attempts 4, last_error set -- leaves that row exactly as it
was instead of resetting it to pending / 0 / NULL. -/
theorem c1_counterexample_restage_no_reset :
    queue_like_for_federation c1_restage_state c1_restage_like "rk" false =
      .ok (c1_restage_state, c1_restage_like) ∧
    ∃ r ∈ c1_restage_state.federation_queue,
      r.key = ("like", 5, "create") ∧ r.status = "failed" ∧ r.attempts = 4 ∧
        r.last_error = some "boom" := by
  constructor
  · rfl
  · decide

/-- C1 amended: across every sequence of staging operations the
federation_queue never holds two rows with the same
(record_type, record_id, operation) key; re-staging through the triggers
that use `ON CONFLICT ... DO UPDATE` (post create, post delete, follow,
unfollow) updates the existing row in place -- same row count, status reset
to pending, attempts reset to 0, last_error cleared, create payload
replaced -- while the like/repost create and delete triggers (migration
20251221171000) insert without `ON CONFLICT` and swallow the duplicate-key
error, so re-staging an already-staged like/repost is a no-op that leaves
the existing row untouched, and in neither case is a duplicate row
created. -/
theorem c1_outbox_unique_upsert :
    (∀ st : FedState, FedReach st → (st.federation_queue.map FQEntry.key).Nodup) ∧
    (∀ (q : List FQEntry) (e : FQEntry), (q.any fun r => r.key = e.key) →
      (fqUpsert q e).length = q.length ∧
      (fqUpsertDelete q e).length = q.length ∧
      (∀ r ∈ fqUpsert q e, r.key = e.key →
        r.status = "pending" ∧ r.attempts = 0 ∧ r.last_error = none ∧
          r.record_data = e.record_data) ∧
      (∀ r ∈ fqUpsertDelete q e, r.key = e.key →
        r.status = "pending" ∧ r.attempts = 0 ∧ r.last_error = none)) ∧
    (∀ (st : FedState) (new : LikeRow) (gen : String) (b : Bool),
      (st.federation_queue.any fun r =>
        r.key = (("like" : String), new.id, ("create" : String))) →
      queue_like_for_federation st new gen b = .ok (st, new)) ∧
    (∀ (st : FedState) (new : RepostRow) (gen : String) (b : Bool),
      (st.federation_queue.any fun r =>
        r.key = (("repost" : String), new.id, ("create" : String))) →
      queue_repost_for_federation st new gen b = .ok (st, new)) := by
  refine ⟨fun st h => fedReach_nodup h, ?_, ?_, ?_⟩
  · intro q e hhit
    refine ⟨?_, ?_, ?_, ?_⟩
    · rw [fqUpsert, if_pos hhit, List.length_map]
    · rw [fqUpsertDelete, if_pos hhit, List.length_map]
    · intro r hr hk
      rw [fqUpsert, if_pos hhit] at hr
      obtain ⟨r₀, hr₀, rfl⟩ := List.mem_map.mp hr
      by_cases h0 : r₀.key = e.key
      · simp only [if_pos h0]
        exact ⟨trivial, trivial, trivial, trivial⟩
      · rw [if_neg h0] at hk
        exact absurd hk h0
    · intro r hr hk
      rw [fqUpsertDelete, if_pos hhit] at hr
      obtain ⟨r₀, hr₀, rfl⟩ := List.mem_map.mp hr
      by_cases h0 : r₀.key = e.key
      · simp only [if_pos h0]
        exact ⟨trivial, trivial, trivial⟩
      · rw [if_neg h0] at hk
        exact absurd hk h0
  · intro st new gen b hkey
    rcases hres : queue_like_for_federation st new gen b with msg | p
    · exfalso
      rw [queue_like_for_federation] at hres
      split at hres
      · cases hres
      · split at hres
        · cases hres
        · cases hres
        · split at hres
          · cases hres
          · cases hres
    · rw [queue_like_for_federation] at hres
      split at hres
      · cases hres; rfl
      · split at hres
        · cases hres; rfl
        · cases hres; rfl
        · split at hres
          · cases hres; rfl
          · next hcond =>
            exact absurd ((Bool.or_eq_true _ _).mpr (Or.inr hkey)) hcond
  · intro st new gen b hkey
    rcases hres : queue_repost_for_federation st new gen b with msg | p
    · exfalso
      rw [queue_repost_for_federation] at hres
      split at hres
      · cases hres
      · split at hres
        · cases hres
        · cases hres
        · split at hres
          · cases hres
          · cases hres
    · rw [queue_repost_for_federation] at hres
      split at hres
      · cases hres; rfl
      · split at hres
        · cases hres; rfl
        · cases hres; rfl
        · split at hres
          · cases hres; rfl
          · next hcond =>
            exact absurd ((Bool.or_eq_true _ _).mpr (Or.inr hkey)) hcond

/-- Witness for C1: re-staging over a one-row queue holding the same key,
and a concrete swallowed re-stage through the operative like trigger. -/
theorem c1_witness :
    ((fqUpsert [restage_old_entry] restage_new_entry).length =
        [restage_old_entry].length ∧
      (fqUpsertDelete [restage_old_entry] restage_new_entry).length =
        [restage_old_entry].length ∧
      (∀ r ∈ fqUpsert [restage_old_entry] restage_new_entry,
        r.key = restage_new_entry.key →
        r.status = "pending" ∧ r.attempts = 0 ∧ r.last_error = none ∧
          r.record_data = restage_new_entry.record_data) ∧
      (∀ r ∈ fqUpsertDelete [restage_old_entry] restage_new_entry,
        r.key = restage_new_entry.key →
        r.status = "pending" ∧ r.attempts = 0 ∧ r.last_error = none)) ∧
    fqUpsert [restage_old_entry] restage_new_entry =
      [{ restage_old_entry with
          record_data := some (.likeData (some "at://p") (some "cid-new")),
          status := "pending", attempts := 0, last_error := none }] ∧
    queue_like_for_federation c1_restage_state c1_restage_like "rk" true =
      .ok (c1_restage_state, c1_restage_like) :=
  ⟨c1_outbox_unique_upsert.2.1 [restage_old_entry] restage_new_entry (by decide),
   by decide,
   c1_outbox_unique_upsert.2.2.1 c1_restage_state c1_restage_like "rk" true
     (by decide)⟩

/-- C2: when the subject resolution of a like/repost (NEW.subject fields
with fallback to the posts table) leaves the uri or the cid null, the
staging trigger returns with the state unchanged; consequently in every
reachable outbox no like or repost payload carries a null subject uri or
content hash. -/
theorem c2_like_repost_subject_guard :
    (∀ (st : FedState) (new : LikeRow) (gen : String) (b : Bool),
      ((resolveSubject st new.subject_uri new.subject_cid new.post_id).1 = none ∨
        (resolveSubject st new.subject_uri new.subject_cid new.post_id).2 = none) →
      queue_like_for_federation st new gen b = .ok (st, new)) ∧
    (∀ (st : FedState) (new : RepostRow) (gen : String) (b : Bool),
      ((resolveSubject st new.subject_uri new.subject_cid new.post_id).1 = none ∨
        (resolveSubject st new.subject_uri new.subject_cid new.post_id).2 = none) →
      queue_repost_for_federation st new gen b = .ok (st, new)) ∧
    (∀ st : FedState, FedReach st → ∀ e ∈ st.federation_queue, ∀ u c,
      e.record_data = some (.likeData u c) ∨ e.record_data = some (.repostData u c) →
      u.isSome ∧ c.isSome) := by
  refine ⟨?_, ?_, fun st h => fedReach_subjectOk h⟩
  · intro st new gen b h
    rw [queue_like_for_federation]
    cases hd : profileDid st new.user_id with
    | none => rfl
    | some did =>
      rcases hsub : resolveSubject st new.subject_uri new.subject_cid new.post_id
        with ⟨u, c⟩
      rw [hsub] at h
      simp only
      cases u with
      | none => rfl
      | some uu =>
        cases c with
        | none => rfl
        | some cc => simp at h
  · intro st new gen b h
    rw [queue_repost_for_federation]
    cases hd : profileDid st new.user_id with
    | none => rfl
    | some did =>
      rcases hsub : resolveSubject st new.subject_uri new.subject_cid new.post_id
        with ⟨u, c⟩
      rw [hsub] at h
      simp only
      cases u with
      | none => rfl
      | some uu =>
        cases c with
        | none => rfl
        | some cc => simp at h



/-- Witness for C2: a like whose subject post is absent resolves to
(none, none) and is not staged. -/
theorem c2_witness :
    resolveSubject c2_skip_state c2_skip_like.subject_uri c2_skip_like.subject_cid
        c2_skip_like.post_id = (none, none) ∧
    queue_like_for_federation c2_skip_state c2_skip_like "rk" false =
      .ok (c2_skip_state, c2_skip_like) :=
  ⟨by decide,
   c2_like_repost_subject_guard.1 c2_skip_state c2_skip_like "rk" false
     (by decide)⟩

/-- C6 counterexample: an error during staging of a post-create propagates
out of `queue_post_for_federation` (the operative generate_tid-era body has
no exception handler), so the originating insert is aborted instead of
committing: the trigger does not return NEW. -/
theorem c6_counterexample_post_trigger_aborts :
    queue_post_for_federation c6_state c6_post "rk" true =
      .error "federation_queue insert failed" ∧
    ∀ (st' : FedState) (r : PostRow),
      queue_post_for_federation c6_state c6_post "rk" true ≠ .ok (st', r) := by
  refine ⟨by rfl, ?_⟩
  intro st' r h
  rw [show queue_post_for_federation c6_state c6_post "rk" true =
    .error "federation_queue insert failed" from by rfl] at h
  exact absurd h (by simp)

/-- C6 amended: the like and repost staging triggers, create and delete
(migration 20251221171000), wrap their bodies in `EXCEPTION WHEN OTHERS`
and return NEW/OLD, so those four mutations are never aborted by staging
failures; the post-create trigger has no handler, so the post insert only
commits when the queue insert itself does not error (shown here as the
no-failure case; the post-deletion, follow and unfollow triggers likewise
have no handler). -/
theorem c6_like_repost_staging_never_aborts :
    (∀ (st : FedState) (new : LikeRow) (gen : String) (b : Bool),
      ∃ st', queue_like_for_federation st new gen b = .ok (st', new)) ∧
    (∀ (st : FedState) (new : RepostRow) (gen : String) (b : Bool),
      ∃ st', queue_repost_for_federation st new gen b = .ok (st', new)) ∧
    (∀ (st : FedState) (old : LikeRow) (b : Bool),
      ∃ st', queue_unlike_for_federation st old b = .ok (st', old)) ∧
    (∀ (st : FedState) (old : RepostRow) (b : Bool),
      ∃ st', queue_unrepost_for_federation st old b = .ok (st', old)) ∧
    (∀ (st : FedState) (new : PostRow) (gen : String),
      ∃ res, queue_post_for_federation st new gen false = .ok res) := by
  refine ⟨?_, ?_, ?_, ?_, ?_⟩
  · intro st new gen b
    rcases hres : queue_like_for_federation st new gen b with msg | p
    · exfalso
      rw [queue_like_for_federation] at hres
      split at hres
      · cases hres
      · split at hres
        · cases hres
        · cases hres
        · split at hres
          · cases hres
          · cases hres
    · rw [queue_like_for_federation] at hres
      split at hres
      · cases hres; exact ⟨st, rfl⟩
      · split at hres
        · cases hres; exact ⟨st, rfl⟩
        · cases hres; exact ⟨st, rfl⟩
        · split at hres
          · cases hres; exact ⟨st, rfl⟩
          · cases hres; exact ⟨_, rfl⟩
  · intro st new gen b
    rcases hres : queue_repost_for_federation st new gen b with msg | p
    · exfalso
      rw [queue_repost_for_federation] at hres
      split at hres
      · cases hres
      · split at hres
        · cases hres
        · cases hres
        · split at hres
          · cases hres
          · cases hres
    · rw [queue_repost_for_federation] at hres
      split at hres
      · cases hres; exact ⟨st, rfl⟩
      · split at hres
        · cases hres; exact ⟨st, rfl⟩
        · cases hres; exact ⟨st, rfl⟩
        · split at hres
          · cases hres; exact ⟨st, rfl⟩
          · cases hres; exact ⟨_, rfl⟩
  · intro st old b
    rcases hres : queue_unlike_for_federation st old b with msg | p
    · exfalso
      rw [queue_unlike_for_federation] at hres
      split at hres
      · cases hres
      · split at hres
        · cases hres
        · split at hres
          · cases hres
          · cases hres
    · rw [queue_unlike_for_federation] at hres
      split at hres
      · cases hres; exact ⟨st, rfl⟩
      · split at hres
        · cases hres; exact ⟨st, rfl⟩
        · split at hres
          · cases hres; exact ⟨st, rfl⟩
          · cases hres; exact ⟨_, rfl⟩
  · intro st old b
    rcases hres : queue_unrepost_for_federation st old b with msg | p
    · exfalso
      rw [queue_unrepost_for_federation] at hres
      split at hres
      · cases hres
      · split at hres
        · cases hres
        · split at hres
          · cases hres
          · cases hres
    · rw [queue_unrepost_for_federation] at hres
      split at hres
      · cases hres; exact ⟨st, rfl⟩
      · split at hres
        · cases hres; exact ⟨st, rfl⟩
        · split at hres
          · cases hres; exact ⟨st, rfl⟩
          · cases hres; exact ⟨_, rfl⟩
  · intro st new gen
    cases hd : profileDid st new.user_id with
    | none => exact ⟨(st, new), by rw [queue_post_for_federation, hd]⟩
    | some did => exact ⟨_, by rw [queue_post_for_federation, hd]; rfl⟩

theorem createNotification_created_iff (st : AVState)
    (ap : Option BskyActorProfile) (uid : Nat) (did reason : String)
    (pid : Option Nat) :
    (createNotification st ap uid did reason pid).2.created = true ↔
      ¬ ∃ n ∈ st.notifications, n.user_id = uid ∧ n.reason = reason ∧
          n.actor_did = did ∧ n.is_external = true := by
  rw [createNotification]
  split
  · next h =>
    simp only [List.any_eq_true, decide_eq_true_eq] at h
    simp only [show ∃ n ∈ st.notifications, n.user_id = uid ∧ n.reason = reason ∧
      n.actor_did = did ∧ n.is_external = true from h]
    simp
  · next h =>
    simp only [List.any_eq_true, decide_eq_true_eq] at h
    simp [h]

theorem createNotification_any_after (st : AVState) (ap : Option BskyActorProfile)
    (uid : Nat) (did reason : String) (pid : Option Nat) :
    ((createNotification st ap uid did reason pid).1.notifications.any fun n =>
      n.user_id = uid ∧ n.reason = reason ∧ n.actor_did = did ∧
        n.is_external = true) = true := by
  rw [createNotification]
  split
  · next h => exact h
  · next h =>
    simp only [List.any_eq_true, decide_eq_true_eq, List.mem_append,
      List.mem_singleton]
    exact ⟨_, Or.inr rfl, rfl, rfl, rfl, rfl⟩

theorem createNotification_idem (st : AVState) (ap : Option BskyActorProfile)
    (uid : Nat) (did reason : String) (pid : Option Nat) :
    createNotification (createNotification st ap uid did reason pid).1 ap uid
        did reason pid =
      ((createNotification st ap uid did reason pid).1, ⟨false, "duplicate"⟩) := by
  have hany := createNotification_any_after st ap uid did reason pid
  set st1 := (createNotification st ap uid did reason pid).1 with hst1
  rw [createNotification, if_pos hany]



/-- C4 counterexample: although no notification with key
(owner 42, like, did:ext, post 2) exists, the like event for post 2 creates
nothing -- the dedup check ignores post_id. -/
theorem c4_counterexample_dedup_ignores_post :
    (¬ ∃ n ∈ c4_state.notifications,
        n.user_id = 42 ∧ n.reason = "like" ∧ n.actor_did = "did:ext" ∧
          n.post_id = some 2) ∧
    processLike c4_state c4_event none = (c4_state, ⟨false, "duplicate"⟩) := by
  constructor
  · decide
  · rfl

/-- C4 amended: createNotification deduplicates external notifications on
(owner, reason, actor, is_external) only, ignoring the post: it creates one
iff no external notification by the same actor with the same reason exists
for that owner; re-delivering the identical trigger is a no-op; and
processing one like event twice leaves exactly one matching row. -/
theorem c4_notification_dedup :
    (∀ (st : AVState) (ap : Option BskyActorProfile) (uid : Nat)
        (did reason : String) (pid : Option Nat),
      (createNotification st ap uid did reason pid).2.created = true ↔
        ¬ ∃ n ∈ st.notifications, n.user_id = uid ∧ n.reason = reason ∧
            n.actor_did = did ∧ n.is_external = true) ∧
    (∀ (st : AVState) (ap : Option BskyActorProfile) (uid : Nat)
        (did reason : String) (pid : Option Nat),
      createNotification (createNotification st ap uid did reason pid).1 ap uid
          did reason pid =
        ((createNotification st ap uid did reason pid).1, ⟨false, "duplicate"⟩)) ∧
    ((processLike (processLike ⟨[], [⟨2, 42, "at://cannect.space/post/2"⟩], []⟩
          c4_event none).1 c4_event none).1.notifications.countP (fun n =>
        n.user_id = 42 ∧ n.reason = "like" ∧ n.actor_did = "did:ext" ∧
          n.is_external = true) = 1) := by
  refine ⟨createNotification_created_iff, createNotification_idem, ?_⟩
  decide



/-- C9: for like, repost, follow, reply and quote commit events, when the
acting identity resolves to the local owner of the target content (or follow
target) the processor returns without creating a notification; when the
resolved actor differs from the owner, processing proceeds to
createNotification with the owner as recipient. -/
theorem c9_notify_unless_self :
    (∀ (st : AVState) (ev : JetEvent) (ap : Option BskyActorProfile)
        (uri : String) (post : AVPost) (a : AVProfile),
      ev.record.subject_uri = some uri → strIncludes CANNECT_DOMAIN uri = true →
      findPostByUri st uri = some post →
      findUserByDid st ev.actorDid = some a → a.id = post.user_id →
      processLike st ev ap = (st, ⟨false, "self-like"⟩)) ∧
    (∀ (st : AVState) (ev : JetEvent) (ap : Option BskyActorProfile)
        (uri : String) (post : AVPost) (a : AVProfile),
      ev.record.subject_uri = some uri → strIncludes CANNECT_DOMAIN uri = true →
      findPostByUri st uri = some post →
      findUserByDid st ev.actorDid = some a → a.id = post.user_id →
      processRepost st ev ap = (st, ⟨false, "self-repost"⟩)) ∧
    (∀ (st : AVState) (ev : JetEvent) (ap : Option BskyActorProfile)
        (d : String) (target a : AVProfile),
      ev.record.subject_did = some d → findUserByDid st d = some target →
      findUserByDid st ev.actorDid = some a → a.id = target.id →
      processFollow st ev ap = (st, ⟨false, "self-follow"⟩)) ∧
    (∀ (st : AVState) (ev : JetEvent) (ap : Option BskyActorProfile)
        (uri : String) (post : AVPost) (a : AVProfile),
      ev.record.reply_parent_uri = some uri →
      strIncludes CANNECT_DOMAIN uri = true →
      findPostByUri st uri = some post →
      findUserByDid st ev.actorDid = some a → a.id = post.user_id →
      ev.record.embed_record_uri = none →
      processPost st ev ap = (st, ⟨false, "not relevant"⟩)) ∧
    (∀ (st : AVState) (ev : JetEvent) (ap : Option BskyActorProfile)
        (uri : String) (post : AVPost) (a : AVProfile),
      ev.record.reply_parent_uri = none →
      ev.record.embed_record_uri = some uri →
      strIncludes CANNECT_DOMAIN uri = true →
      findPostByUri st uri = some post →
      findUserByDid st ev.actorDid = some a → a.id = post.user_id →
      processPost st ev ap = (st, ⟨false, "not relevant"⟩)) ∧
    (∀ (st : AVState) (ev : JetEvent) (ap : Option BskyActorProfile)
        (uri : String) (post : AVPost),
      ev.record.subject_uri = some uri → strIncludes CANNECT_DOMAIN uri = true →
      findPostByUri st uri = some post →
      (findUserByDid st ev.actorDid).map (fun a => a.id) ≠ some post.user_id →
      processLike st ev ap =
        createNotification st ap post.user_id ev.actorDid "like" (some post.id)) ∧
    (∀ (st : AVState) (ev : JetEvent) (ap : Option BskyActorProfile)
        (uri : String) (post : AVPost),
      ev.record.subject_uri = some uri → strIncludes CANNECT_DOMAIN uri = true →
      findPostByUri st uri = some post →
      (findUserByDid st ev.actorDid).map (fun a => a.id) ≠ some post.user_id →
      processRepost st ev ap =
        createNotification st ap post.user_id ev.actorDid "repost" (some post.id)) ∧
    (∀ (st : AVState) (ev : JetEvent) (ap : Option BskyActorProfile)
        (d : String) (target : AVProfile),
      ev.record.subject_did = some d → findUserByDid st d = some target →
      (findUserByDid st ev.actorDid).map (fun a => a.id) ≠ some target.id →
      processFollow st ev ap =
        createNotification st ap target.id ev.actorDid "follow" none) ∧
    (∀ (st : AVState) (ev : JetEvent) (ap : Option BskyActorProfile)
        (uri : String) (post : AVPost),
      ev.record.reply_parent_uri = some uri →
      strIncludes CANNECT_DOMAIN uri = true →
      findPostByUri st uri = some post →
      (findUserByDid st ev.actorDid).map (fun a => a.id) ≠ some post.user_id →
      processPost st ev ap =
        createNotification st ap post.user_id ev.actorDid "reply" (some post.id)) ∧
    (∀ (st : AVState) (ev : JetEvent) (ap : Option BskyActorProfile)
        (uri : String) (post : AVPost),
      ev.record.reply_parent_uri = none →
      ev.record.embed_record_uri = some uri →
      strIncludes CANNECT_DOMAIN uri = true →
      findPostByUri st uri = some post →
      (findUserByDid st ev.actorDid).map (fun a => a.id) ≠ some post.user_id →
      processPost st ev ap =
        createNotification st ap post.user_id ev.actorDid "quote" (some post.id)) := by
  refine ⟨?_, ?_, ?_, ?_, ?_, ?_, ?_, ?_, ?_, ?_⟩
  · intro st ev ap uri post a hsub hinc hpost ha haid
    simp [processLike, hsub, hinc, hpost, ha, haid]
  · intro st ev ap uri post a hsub hinc hpost ha haid
    simp [processRepost, hsub, hinc, hpost, ha, haid]
  · intro st ev ap d target a hsub htarget ha haid
    simp [processFollow, hsub, htarget, ha, haid]
  · intro st ev ap uri post a hpar hinc hpost ha haid hemb
    simp [processPost, hpar, hinc, hpost, ha, haid, hemb]
  · intro st ev ap uri post a hpar hemb hinc hpost ha haid
    simp [processPost, hpar, hemb, hinc, hpost, ha, haid]
  · intro st ev ap uri post hsub hinc hpost hne
    simp [processLike, hsub, hinc, hpost, hne]
  · intro st ev ap uri post hsub hinc hpost hne
    simp [processRepost, hsub, hinc, hpost, hne]
  · intro st ev ap d target hsub htarget hne
    simp [processFollow, hsub, htarget, hne]
  · intro st ev ap uri post hpar hinc hpost hne
    simp [processPost, hpar, hinc, hpost, hne]
  · intro st ev ap uri post hpar hemb hinc hpost hne
    simp [processPost, hpar, hemb, hinc, hpost, hne]



/-- Witness for C9: the self-like is suppressed; the foreign follow creates
a notification. -/
theorem c9_witness :
    processLike c9_state c9_self_like_event none =
      (c9_state, ⟨false, "self-like"⟩) ∧
    (processFollow c9_state c9_follow_event none).2.created = true :=
  ⟨c9_notify_unless_self.1 c9_state c9_self_like_event none
      "at://cannect.space/post/3" ⟨3, 7, "at://cannect.space/post/3"⟩
      ⟨7, "did:plc:owner"⟩ rfl (by decide) (by decide) (by decide) rfl,
   by decide⟩

/-- C7: shouldIncludePost returns include = true exactly when the author
handle ends with ".cannect.space" or the text matches the curated
whole-word, case-insensitive cannabis keyword pattern; a suffix-matching
handle is included regardless of text, the exact word "cannabis" from an
unrelated handle is included as a keyword match, and neither means
exclusion. -/
theorem c7_shouldIncludePost_predicate :
    (∀ authorHandle text : String,
      (shouldIncludePost authorHandle text).included = true ↔
        (strEndsWith authorHandle ".cannect.space" = true ∨
          cannabisRegexTest text = true)) ∧
    shouldIncludePost "alice.cannect.space" "totally unrelated text" =
      ⟨true, "cannect_user"⟩ ∧
    shouldIncludePost "bob.example.com" "i enjoy cannabis daily" =
      ⟨true, "keyword_match"⟩ ∧
    shouldIncludePost "bob.example.com" "nothing to see here" =
      ⟨false, "no_match"⟩ := by
  refine ⟨?_, by decide, by decide, by decide⟩
  intro authorHandle text
  rw [shouldIncludePost]
  by_cases h1 : authorHandle ≠ "" ∧ strEndsWith authorHandle ".cannect.space"
  · rw [if_pos h1]
    simp [h1.2]
  · rw [if_neg h1]
    by_cases h2 : text ≠ "" ∧ cannabisRegexTest text
    · rw [if_pos h2]
      simp [h2.2]
    · rw [if_neg h2]
      simp only [show (IncludeResult.mk false "no_match").included = false from rfl]
      constructor
      · intro hc
        exact absurd hc (by simp)
      · intro hc
        exfalso
        rcases hc with hc | hc
        · by_cases hemp : authorHandle = ""
          · subst hemp
            exact absurd hc (by decide)
          · exact h1 ⟨hemp, hc⟩
        · by_cases hemp : text = ""
          · subst hemp
            exact absurd hc (by decide)
          · exact h2 ⟨hemp, hc⟩



/-- C8 counterexample: with a single indexed URI and limit 1 the whole
index is returned and no URI remains beyond the slice, yet a continuation
cursor is still emitted, because the cursor condition is slice fullness,
not remaining data. -/
theorem c8_counterexample_cursor_without_more :
    (getFeedSkeleton ["u1"] (some "1") none 0).feed = ["u1"] ∧
    (getFeedSkeleton ["u1"] (some "1") none 0).cursor = some "0:1" ∧
    ¬ (cursorOffset none + effectiveLimit (some "1") <
        ((["u1"] : List String).length : Int)) := by
  refine ⟨by decide, by decide, by decide⟩

/-- C8 amended: getFeedSkeleton returns the slice of the newest-first index
starting at the cursor offset, and includes a continuation cursor
"now:offset+limit" iff the returned slice is full (its length equals the
effective page size) -- which can also happen when exactly zero URIs
remain. -/
theorem c8_feed_slice_cursor (index : List String) (lp cp : Option String)
    (now : Nat) :
    (getFeedSkeleton index lp cp now).feed =
      (index.drop (cursorOffset cp).toNat).take (effectiveLimit lp).toNat ∧
    ((getFeedSkeleton index lp cp now).cursor.isSome = true ↔
      ((getFeedSkeleton index lp cp now).feed.length : Int) = effectiveLimit lp) ∧
    (∀ s, (getFeedSkeleton index lp cp now).cursor = some s →
      s = toString now ++ ":" ++
        toString (cursorOffset cp + effectiveLimit lp)) := by
  refine ⟨rfl, ?_, ?_⟩
  · rw [getFeedSkeleton]
    by_cases h : ((getPosts index (effectiveLimit lp) (cursorOffset cp)).length : Int)
        = effectiveLimit lp
    · simp only [if_pos h]
      simp [getFeedSkeleton, h]
    · simp only [if_neg h]
      simp [getFeedSkeleton, h]
  · intro s hs
    rw [getFeedSkeleton] at hs
    by_cases h : ((getPosts index (effectiveLimit lp) (cursorOffset cp)).length : Int)
        = effectiveLimit lp
    · simp only [if_pos h] at hs
      cases hs
      rfl
    · simp only [if_neg h] at hs
      cases hs

/-- C10: the number of feed items returned never exceeds 100; the effective
page size is min(parsed limit, 100), and an absent, non-numeric or zero
limit parameter falls back to 30. -/
theorem c10_limit_clamp_default :
    (∀ (index : List String) (lp cp : Option String) (now : Nat),
      (getFeedSkeleton index lp cp now).feed.length ≤ 100) ∧
    (∀ lp : Option String, lp.bind jsParseInt = none → effectiveLimit lp = 30) ∧
    (∀ lp : Option String, lp.bind jsParseInt = some 0 → effectiveLimit lp = 30) ∧
    (∀ (lp : Option String) (n : Int), n ≠ 0 → lp.bind jsParseInt = some n →
      effectiveLimit lp = min n 100) := by
  refine ⟨?_, ?_, ?_, ?_⟩
  · intro index lp cp now
    have h1 : (getFeedSkeleton index lp cp now).feed.length ≤
        (effectiveLimit lp).toNat := by
      simp only [getFeedSkeleton, getPosts]
      exact List.length_take_le _ _
    have h2 : (effectiveLimit lp).toNat ≤ 100 := by
      have hm : effectiveLimit lp ≤ (100 : Int) := min_le_right _ _
      have := Int.toNat_le_toNat hm
      simpa using this
    omega
  · intro lp h
    rw [effectiveLimit, h]
    rfl
  · intro lp h
    rw [effectiveLimit, h]
    rfl
  · intro lp n hn h
    rw [effectiveLimit, h]
    rw [jsOrNum, if_neg hn]

/-- Witness for C8 amended. -/
theorem c8_witness :
    (getFeedSkeleton ["a", "b", "c"] (some "2") none 7).cursor = some "7:2" ∧
    "7:2" = toString 7 ++ ":" ++
      toString (cursorOffset none + effectiveLimit (some "2")) :=
  ⟨by decide,
   (c8_feed_slice_cursor ["a", "b", "c"] (some "2") none 7).2.2 "7:2" (by decide)⟩

/-- Witness for C10. -/
theorem c10_witness :
    effectiveLimit (some "abc") = 30 ∧ effectiveLimit (some "250") = min 250 100 ∧
    effectiveLimit (some "250") = 100 :=
  ⟨c10_limit_clamp_default.2.1 (some "abc") (by decide),
   c10_limit_clamp_default.2.2.2 (some "250") 250 (by decide) (by decide),
   by decide⟩



theorem runCycles_stuck (os : List DeliveryOutcome) (e : FQEntry)
    (h : ¬ e.status = "pending") : runCycles e os = (e, 0) := by
  induction os with
  | nil => rfl
  | cons o os ih =>
    rw [runCycles]
    rw [show syncCycle e o = (e, false) from by rw [syncCycle, if_neg h]]
    rw [ih]
    rfl

theorem runCycles_transient : ∀ (os : List DeliveryOutcome) (e : FQEntry),
    e.status = "pending" → e.attempts < MAX_ATTEMPTS →
    (∀ o ∈ os, ∃ m, o = .transientFailure m) →
    ((runCycles e os).2 = min os.length (MAX_ATTEMPTS - e.attempts)) ∧
    (MAX_ATTEMPTS - e.attempts ≤ os.length →
      (runCycles e os).1.status = "failed" ∧
      (runCycles e os).1.attempts = MAX_ATTEMPTS ∧
      (runCycles e os).1.last_error.isSome) ∧
    (os.length < MAX_ATTEMPTS - e.attempts →
      (runCycles e os).1.status = "pending" ∧
      (runCycles e os).1.attempts = e.attempts + os.length) := by
  intro os
  induction os with
  | nil =>
    intro e hst hat _
    refine ⟨?_, ?_, ?_⟩
    · simp [runCycles, MAX_ATTEMPTS]
    · intro h
      rw [MAX_ATTEMPTS] at h hat
      simp at h
      omega
    · intro _
      exact ⟨hst, by simp [runCycles]⟩
  | cons o os ih =>
    intro e hst hat hall
    obtain ⟨m, rfl⟩ := hall o (List.mem_cons_self o os)
    have hcyc : syncCycle e (.transientFailure m) =
        (syncApplyOutcome e (.transientFailure m), true) := by
      rw [syncCycle, if_pos hst]
    by_cases hceil : MAX_ATTEMPTS ≤ e.attempts + 1
    · have happ : syncApplyOutcome e (.transientFailure m) =
          { e with
              status := "failed", attempts := e.attempts + 1,
              last_error := some m } := by
        rw [syncApplyOutcome]
        simp only [if_pos hceil]
      have hat5 : e.attempts + 1 = MAX_ATTEMPTS := by omega
      have hrest : runCycles
          { e with
              status := "failed", attempts := e.attempts + 1,
              last_error := some m } os =
          ({ e with
              status := "failed", attempts := e.attempts + 1,
              last_error := some m }, 0) := by
        apply runCycles_stuck
        simp
      rw [runCycles, hcyc, happ, hrest]
      refine ⟨?_, ?_, ?_⟩
      · simp only []
        rw [MAX_ATTEMPTS] at hat hceil ⊢
        simp
        omega
      · intro _
        exact ⟨rfl, by simpa using hat5, rfl⟩
      · intro hlt
        rw [MAX_ATTEMPTS] at hat hceil
        simp at hlt
        omega
    · have happ : syncApplyOutcome e (.transientFailure m) =
          { e with
              status := "pending", attempts := e.attempts + 1,
              last_error := some m } := by
        rw [syncApplyOutcome]
        simp only [if_neg hceil]
      have hlt5 : e.attempts + 1 < MAX_ATTEMPTS := by omega
      have hih := ih
        { e with
            status := "pending", attempts := e.attempts + 1,
            last_error := some m } rfl hlt5
        (fun o ho => hall o (List.mem_cons_of_mem _ ho))
      rw [runCycles, hcyc, happ]
      refine ⟨?_, ?_, ?_⟩
      · simp only []
        rw [hih.1]
        simp
        omega
      · intro hle
        simp only [List.length_cons] at hle
        have := hih.2.1 (by simp; omega)
        simpa using this
      · intro hlt
        simp only [List.length_cons] at hlt
        have := hih.2.2 (by simp; omega)
        refine ⟨this.1, ?_⟩
        have h2 := this.2
        simp at h2 ⊢
        omega

/-- C5: a transient delivery failure below the ceiling increments attempts
and leaves the entry pending with last_error recorded; from a fresh entry,
the worker never makes more than 5 delivery attempts, and once 5 transient
failures have occurred the entry is failed with last_error set, with no
further attempt ever made (only pending entries are attempted). -/
theorem c5_sync_worker_retry_ceiling :
    (∀ (e : FQEntry) (msg : String), e.status = "pending" →
      e.attempts + 1 < MAX_ATTEMPTS →
      (syncCycle e (.transientFailure msg)).1.status = "pending" ∧
      (syncCycle e (.transientFailure msg)).1.attempts = e.attempts + 1 ∧
      (syncCycle e (.transientFailure msg)).1.last_error = some msg) ∧
    (∀ (e : FQEntry) (os : List DeliveryOutcome), e.status = "pending" →
      e.attempts = 0 → (∀ o ∈ os, ∃ m, o = .transientFailure m) →
      (runCycles e os).2 ≤ MAX_ATTEMPTS ∧
      (MAX_ATTEMPTS ≤ os.length →
        (runCycles e os).1.status = "failed" ∧
        (runCycles e os).1.last_error.isSome ∧
        (runCycles e os).2 = MAX_ATTEMPTS)) := by
  constructor
  · intro e msg hst hat
    rw [show syncCycle e (.transientFailure msg) =
        (syncApplyOutcome e (.transientFailure msg), true) from by
      rw [syncCycle, if_pos hst]]
    rw [show syncApplyOutcome e (.transientFailure msg) =
        { e with
            status := "pending", attempts := e.attempts + 1,
            last_error := some msg } from by
      rw [syncApplyOutcome]
      simp only [if_neg (by omega : ¬ MAX_ATTEMPTS ≤ e.attempts + 1)]]
    exact ⟨rfl, rfl, rfl⟩
  · intro e os hst hat hall
    have h0 : e.attempts < MAX_ATTEMPTS := by rw [hat, MAX_ATTEMPTS]; omega
    have h := runCycles_transient os e hst h0 hall
    refine ⟨?_, ?_⟩
    · rw [h.1]
      omega
    · intro hlen
      have hle : MAX_ATTEMPTS - e.attempts ≤ os.length := by omega
      have h2 := h.2.1 hle
      refine ⟨h2.1, h2.2.2, ?_⟩
      rw [h.1]
      omega

/-- Witness for C5: six straight transient failures make exactly 5 attempts
and leave the entry failed. -/
theorem c5_witness :
    ((runCycles c5_entry (List.replicate 6 (.transientFailure "net"))).2 ≤
        MAX_ATTEMPTS ∧
      (MAX_ATTEMPTS ≤ (List.replicate 6
          (DeliveryOutcome.transientFailure "net")).length →
        (runCycles c5_entry (List.replicate 6 (.transientFailure "net"))).1.status
            = "failed" ∧
        (runCycles c5_entry
          (List.replicate 6 (.transientFailure "net"))).1.last_error.isSome ∧
        (runCycles c5_entry (List.replicate 6 (.transientFailure "net"))).2 =
          MAX_ATTEMPTS)) ∧
    (runCycles c5_entry (List.replicate 6 (.transientFailure "net"))).2 = 5 :=
  ⟨c5_sync_worker_retry_ceiling.2 c5_entry
      (List.replicate 6 (.transientFailure "net")) rfl rfl
      (fun o ho => ⟨"net", List.eq_of_mem_replicate ho⟩),
   by decide⟩

end Cannect
